import Mathlib

/-!
# Forty-Fives rules engine: a shallow embedding

This file embeds the Forty-Fives card-game engine
(`fortyfives/games/fortyfives/card.py`, `dealer.py` and `game.py`) in Lean and
proves properties of it.

Conventions of the embedding:
* Python `int` fields become `Nat` (or `Int` where values go negative),
  Python lists become `List`, `None`-able fields become `Option`.
* The fields `trump_suit` and `trick_lead_suit` hold, at run time, either
  `None`, an `int` (the declaration action), or a one-character suit string
  (set directly by the test-suite).  They are embedded as the sum type
  `PySuit` and Python's dynamically-typed `==` on such values is `pyEq`:
  values of different runtime types never compare equal.
* Python exceptions (`ValueError` on a bad discard index, `IndexError` on a
  bad `list.pop` index, `TypeError`/`KeyError` on `None` arithmetic and bad
  dict lookups) are modelled by `Except PyErr`.
-/

set_option maxRecDepth 100000

/-- Card ranks, in the order of `RANKS = ['2',...,'T','J','Q','K','A']`. -/
inductive Rank where
  | r2 | r3 | r4 | r5 | r6 | r7 | r8 | r9 | rT | rJ | rQ | rK | rA
  deriving DecidableEq, Repr, Fintype

/-- Card suits, in the order of `SUITS = ['S', 'H', 'D', 'C']`. -/
inductive Suit where
  | S | H | D | C
  deriving DecidableEq, Repr, Fintype

/-- `FortyfivesCard`: an immutable (rank, suit) pair. -/
structure Card where
  rank : Rank
  suit : Suit
  deriving DecidableEq, Repr, Fintype

/-- The runtime value of the suit-typed game fields `trump_suit` and
`trick_lead_suit`: Python `None`, a Python `int`, or a suit string. -/
inductive PySuit where
  | pyNone
  | pyInt (n : Nat)
  | pyStr (s : Suit)
  deriving DecidableEq, Repr

/-- Python `==` on `PySuit` values: values of different runtime types are
never equal (`0 == 'S'` is `False` in Python). -/
def pyEq : PySuit → PySuit → Bool
  | .pyNone, .pyNone => true
  | .pyInt m, .pyInt n => m == n
  | .pyStr a, .pyStr b => a == b
  | _, _ => false

/-- `FortyfivesCard.is_red_suit`. -/
def is_red_suit (s : Suit) : Bool := s == .H || s == .D

/-- `get_card_rank(card, trump_suit)` from `card.py`: the strength of a card
given the current trump value.  Note the comparison `card.suit == trump_suit`
is a dynamically-typed Python `==` (the `trump_suit` field may hold an `int`);
the red non-trump map has no entry for rank 5, so `rank_map.get(card.rank, 0)`
yields 0 there. -/
def get_card_rank (card : Card) (trump_suit : PySuit) : Nat :=
  -- Special case: Ace of Hearts is always trump
  if card.rank = .rA ∧ card.suit = .H then 1001
  else if pyEq (.pyStr card.suit) trump_suit then
    -- Special trump ranking for 5, J, A, K, Q
    match card.rank with
    | .r5 => 1003
    | .rJ => 1002
    | .rA => 1000
    | .rK => 999
    | .rQ => 998
    | r =>
      if is_red_suit card.suit then
        -- Red trump: 10, 9, 8, 7, 6, 4, 3, 2 (then default 989)
        match r with
        | .rT => 997 | .r9 => 996 | .r8 => 995 | .r7 => 994
        | .r6 => 993 | .r4 => 992 | .r3 => 991 | .r2 => 990
        | _ => 989
      else
        -- Black trump: 2, 3, 4, 6, 7, 8, 9, 10 (then default 989)
        match r with
        | .r2 => 997 | .r3 => 996 | .r4 => 995 | .r6 => 994
        | .r7 => 993 | .r8 => 992 | .r9 => 991 | .rT => 990
        | _ => 989
  else if is_red_suit card.suit then
    -- Red non-trump: K, Q, J, 10, 9, 8, 7, 6, 4, 3, 2, A; no entry for 5,
    -- so `rank_map.get(card.rank, 0)` returns 0 for the 5
    match card.rank with
    | .rK => 900 | .rQ => 899 | .rJ => 898 | .rT => 897 | .r9 => 896
    | .r8 => 895 | .r7 => 894 | .r6 => 893 | .r4 => 892 | .r3 => 891
    | .r2 => 890 | .rA => 889
    | .r5 => 0
  else
    -- Black non-trump: K, Q, J, A, 2, 3, 4, 5, 6, 7, 8, 9, 10
    match card.rank with
    | .rK => 800 | .rQ => 799 | .rJ => 798 | .rA => 797 | .r2 => 796
    | .r3 => 795 | .r4 => 794 | .r5 => 793 | .r6 => 792 | .r7 => 791
    | .r8 => 790 | .r9 => 789 | .rT => 788

/-- The trump test used throughout `game.py`:
`card.suit == self.trump_suit or (card.rank == 'A' and card.suit == 'H')`. -/
def isTrumpCard (c : Card) (trump : PySuit) : Bool :=
  pyEq (.pyStr c.suit) trump || (c.rank == .rA && c.suit == .H)

/-- `FortyfivesCard.__init__`: rank of the card with a given id (`id % 13`
indexes `RANKS`). -/
def rankOfIdx : Nat → Rank
  | 0 => .r2 | 1 => .r3 | 2 => .r4 | 3 => .r5 | 4 => .r6 | 5 => .r7
  | 6 => .r8 | 7 => .r9 | 8 => .rT | 9 => .rJ | 10 => .rQ | 11 => .rK
  | _ => .rA

/-- `FortyfivesCard.__init__`: suit of the card with a given id (`id // 13`
indexes `SUITS`). -/
def suitOfIdx : Nat → Suit
  | 0 => .S | 1 => .H | 2 => .D | _ => .C

/-- Card with a given id, as built by `FortyfivesCard(card_id)`. -/
def cardOfId (card_id : Nat) : Card :=
  ⟨rankOfIdx (card_id % 13), suitOfIdx (card_id / 13)⟩

/-- `init_deck()`: the 52-card universe in id order. -/
def init_deck : List Card := (List.range 52).map cardOfId

/-- The trump-equivalent cards of suit `t`, strongest first, as listed by the
specification for a red trump suit: 5, J, A♥, A, K, Q, 10, 9, 8, 7, 6, 4, 3, 2.
For `t = H` the third and fourth entries coincide. -/
def redTrumpChain (t : Suit) : List Card :=
  [⟨.r5, t⟩, ⟨.rJ, t⟩, ⟨.rA, .H⟩, ⟨.rA, t⟩, ⟨.rK, t⟩, ⟨.rQ, t⟩,
   ⟨.rT, t⟩, ⟨.r9, t⟩, ⟨.r8, t⟩, ⟨.r7, t⟩, ⟨.r6, t⟩, ⟨.r4, t⟩,
   ⟨.r3, t⟩, ⟨.r2, t⟩]

/-- The trump-equivalent cards of a black trump suit `t`, strongest first:
5, J, A♥, A, K, Q, then 2, 3, 4, 6, 7, 8, 9, 10. -/
def blackTrumpChain (t : Suit) : List Card :=
  [⟨.r5, t⟩, ⟨.rJ, t⟩, ⟨.rA, .H⟩, ⟨.rA, t⟩, ⟨.rK, t⟩, ⟨.rQ, t⟩,
   ⟨.r2, t⟩, ⟨.r3, t⟩, ⟨.r4, t⟩, ⟨.r6, t⟩, ⟨.r7, t⟩, ⟨.r8, t⟩,
   ⟨.r9, t⟩, ⟨.rT, t⟩]

/-- C7: for every declared trump suit, every trump-equivalent card (trump
suit or A♥) is strictly stronger than every non-trump card, and the trump
strengths descend in the stated order: 5, J, A♥, A, K, Q then 10..2 for a red
trump suit and 2..10 for a black one (for trump Hearts the A♥ entry and the
trump-Ace entry are the same card, whence the `dedup`). -/
theorem c7_trump_strength_ordering :
    ∀ t : Suit,
      (∀ c c' : Card, isTrumpCard c (.pyStr t) = true →
        isTrumpCard c' (.pyStr t) = false →
        get_card_rank c' (.pyStr t) < get_card_rank c (.pyStr t)) ∧
      (is_red_suit t = true →
        (((redTrumpChain t).map (get_card_rank · (.pyStr t))).dedup).Pairwise (· > ·)) ∧
      (is_red_suit t = false →
        (((blackTrumpChain t).map (get_card_rank · (.pyStr t))).dedup).Pairwise (· > ·)) := by
  decide

/-- Witness for `c7_trump_strength_ordering` at trump Diamonds, with the
trump-vs-non-trump comparison instantiated at 2♦ against K♠. -/
theorem c7_trump_strength_ordering_witness :
    isTrumpCard ⟨.r2, .D⟩ (.pyStr .D) = true ∧
    isTrumpCard ⟨.rK, .S⟩ (.pyStr .D) = false ∧
    get_card_rank ⟨.rK, .S⟩ (.pyStr .D) < get_card_rank ⟨.r2, .D⟩ (.pyStr .D) ∧
    (((redTrumpChain .D).map (get_card_rank · (.pyStr .D))).dedup).Pairwise
      (· > ·) :=
  ⟨by decide, by decide,
    (c7_trump_strength_ordering .D).1 ⟨.r2, .D⟩ ⟨.rK, .S⟩ (by decide)
      (by decide),
    (c7_trump_strength_ordering .D).2.1 (by decide)⟩

/-- The non-trump cards of a red suit `s`, strongest first, as listed by the
claim: K, Q, J, 10, 9, 8, 7, 6, 4, 3, 2, A — for `s = H` the Ace of Hearts is
excluded (it is always trump-equivalent). -/
def redOffsuitChain (s : Suit) : List Card :=
  [⟨.rK, s⟩, ⟨.rQ, s⟩, ⟨.rJ, s⟩, ⟨.rT, s⟩, ⟨.r9, s⟩, ⟨.r8, s⟩,
   ⟨.r7, s⟩, ⟨.r6, s⟩, ⟨.r4, s⟩, ⟨.r3, s⟩, ⟨.r2, s⟩] ++
  (if s = .H then [] else [⟨.rA, s⟩])

/-- C9, counterexample: with trump Spades, the red non-trump 5♦ has strength
0 while A♦ has strength 889, so the Ace of a red non-trump suit is *not*
strictly weaker than that suit's 5 (the claim asserts it is). -/
theorem c9_counterexample :
    get_card_rank ⟨.r5, .D⟩ (.pyStr .S) = 0 ∧
    get_card_rank ⟨.rA, .D⟩ (.pyStr .S) = 889 ∧
    ¬ get_card_rank ⟨.rA, .D⟩ (.pyStr .S) < get_card_rank ⟨.r5, .D⟩ (.pyStr .S) := by
  decide

/-- C9, amended: for every red suit that is not the trump suit, the strengths
of the listed ranks K, Q, J, 10, 9, 8, 7, 6, 4, 3, 2, A descend strictly in
that order (Ace weakest among them), but the 5 of such a suit is assigned
strength 0, strictly below the Ace — the Ace is not the weakest card of the
suit. -/
theorem c9_red_offsuit_order (t s : Suit) (hred : is_red_suit s = true)
    (hne : s ≠ t) :
    (((redOffsuitChain s).map (get_card_rank · (.pyStr t))).Pairwise (· > ·)) ∧
    get_card_rank ⟨.r5, s⟩ (.pyStr t) = 0 ∧
    get_card_rank ⟨.r5, s⟩ (.pyStr t) < get_card_rank ⟨.rA, s⟩ (.pyStr t) := by
  revert hred hne
  revert t s
  decide

/-- Witness for `c9_red_offsuit_order` at trump Spades and suit Diamonds. -/
theorem c9_red_offsuit_order_witness :
    is_red_suit .D = true ∧ Suit.D ≠ Suit.S ∧
    ((((redOffsuitChain .D).map (get_card_rank · (.pyStr .S))).Pairwise (· > ·)) ∧
      get_card_rank ⟨.r5, .D⟩ (.pyStr .S) = 0 ∧
      get_card_rank ⟨.r5, .D⟩ (.pyStr .S) < get_card_rank ⟨.rA, .D⟩ (.pyStr .S)) :=
  ⟨by decide, by decide, c9_red_offsuit_order .S .D (by decide) (by decide)⟩

/-! ## Game constants (`game.py` module level) -/

def PHASE_DEAL : Nat := 0
def PHASE_AUCTION : Nat := 1
def PHASE_DECLARATION : Nat := 2
def PHASE_DISCARD : Nat := 3
def PHASE_GAMEPLAY : Nat := 4
def PHASE_SCORING : Nat := 5

def BID_PASS : Nat := 0
def BID_20 : Nat := 1
def BID_25 : Nat := 2
def BID_30 : Nat := 3
def BID_HOLD : Nat := 4

def DISCARD_DONE : Nat := 16

/-- `BID_VALUES`: a Python dict with keys 1..4; the value stored for
`BID_HOLD` is `None`.  The outer `Option` is the dict lookup (`none` =
`KeyError`), the inner one the stored value. -/
def BID_VALUES : Nat → Option (Option Nat)
  | 1 => some (some 20)
  | 2 => some (some 25)
  | 3 => some (some 30)
  | 4 => some none
  | _ => none

/-- Python exceptions raised by the engine. -/
inductive PyErr where
  | valueError | indexError | typeError | keyError
  deriving DecidableEq, Repr

/-- The mutable state of `FortyfivesGame` (the fields the game logic reads or
writes; constant settings like `num_players = 4` are inlined, and the dealer
object's `deck` and `pot` are inlined as fields). -/
structure GameState where
  dealer_id : Nat
  current_player_id : Nat
  auction_starting_player : Nat
  phase : Nat
  hands : List (List Card)
  bids : List (Option Nat)
  highest_bidder : Option Nat
  highest_bid : Option Nat
  passed : List Bool
  trump_suit : PySuit
  current_trick : List (Option Card)
  trick_lead_suit : PySuit
  trick_winner : Option Nat
  tricks_won : List Nat
  trick_count : Nat
  trick_starter : Option Nat
  highest_trump_played : Option Card
  highest_trump_player : Option Nat
  trick_history : List (List (Option Card))
  trick_winners : List Nat
  points : List Int
  hand_points : List Int
  deck : List Card
  pot : List Card
  discard_pile : List Card
  -- `bid_made` is set lazily by `score_hand`; `getattr(self,'bid_made',True)`
  bid_made : Option Bool
  -- test-only flag, absent (false) in every state the engine itself builds
  test_strict_suit_following : Bool
  deriving DecidableEq, Repr

/-! ## Dealer (`dealer.py`) -/

/-- Python `list.pop()`: remove and return the last element.  All call sites
below either guard on non-emptiness or pop from a deck long enough that the
pop always succeeds ; on `[]` (Python `IndexError`) we return an arbitrary
card, a case excluded at every use. -/
def pyPop (deck : List Card) : Card × List Card :=
  (deck.getLastD ⟨.r2, .S⟩, deck.dropLast)

/-- Deal one card off the end of the deck into hand `p`. -/
def dealOnceTo (deck : List Card) (hands : List (List Card)) (p : Nat) :
    List Card × List (List Card) :=
  let (c, deck') := pyPop deck
  (deck', hands.set p (hands.getD p [] ++ [c]))

/-- One round of `deal_cards`: one card to each of the four players in seat
order (clockwise, one at a time). -/
def dealRound (deck : List Card) (hands : List (List Card)) :
    List Card × List (List Card) :=
  let (d0, h0) := dealOnceTo deck hands 0
  let (d1, h1) := dealOnceTo d0 h0 1
  let (d2, h2) := dealOnceTo d1 h1 2
  let (d3, h3) := dealOnceTo d2 h2 3
  (d3, h3)

/-- `FortyfivesDealer.deal_cards(4, 5)`: five round-robin rounds, then three
cards into the kitty.  Returns (hands, pot, remaining deck). -/
def deal_cards (deck : List Card) : List (List Card) × List Card × List Card :=
  let (d1, h1) := dealRound deck [[], [], [], []]
  let (d2, h2) := dealRound d1 h1
  let (d3, h3) := dealRound d2 h2
  let (d4, h4) := dealRound d3 h3
  let (d5, h5) := dealRound d4 h4
  let (k1, e1) := pyPop d5
  let (k2, e2) := pyPop e1
  let (k3, e3) := pyPop e2
  (h5, [k1, k2, k3], e3)

/-- Pop `n` cards (stopping early on an empty deck, as the loop in
`_replenish_hands` does); returns them in pop order plus the rest. -/
def popN : Nat → List Card → List Card × List Card
  | 0, deck => ([], deck)
  | n + 1, deck =>
    if deck.isEmpty then ([], deck)
    else
      let (c, d') := pyPop deck
      let (cs, d'') := popN n d'
      (c :: cs, d'')

/-- The body of `_replenish_hands` for one player: draw up to `5 - len(hand)`
cards from the deck. -/
def replenishPlayer (deck : List Card) (hand : List Card) :
    List Card × List Card :=
  let cards_needed := 5 - hand.length
  if cards_needed > 0 ∧ deck ≠ [] then
    let (new_cards, deck') := popN (min cards_needed deck.length) deck
    (deck', hand ++ new_cards)
  else (deck, hand)

/-- `FortyfivesGame._replenish_hands`: replenish all hands to 5 cards, in
seat order, skipping players when the deck runs out. -/
def replenish_hands (deck : List Card) (hands : List (List Card)) :
    List Card × List (List Card) :=
  let (d0, h0) := replenishPlayer deck (hands.getD 0 [])
  let (d1, h1) := replenishPlayer d0 (hands.getD 1 [])
  let (d2, h2) := replenishPlayer d1 (hands.getD 2 [])
  let (d3, h3) := replenishPlayer d2 (hands.getD 3 [])
  (d3, ((hands.set 0 h0).set 1 h1 |>.set 2 h2).set 3 h3)

/-! ## Legal actions (`game.py`) -/

/-- Indices `i` of `hand` whose card satisfies `P` — the embedding of the
Python list comprehensions `[i for i, card in enumerate(hand) if P(card)]`. -/
def idxWhere (hand : List Card) (P : Card → Bool) : List Nat :=
  (List.range hand.length).filter (fun i => (hand.get? i).any P)

/-- Insert into an ascending list, keeping it ascending. -/
def insertSorted (n : Nat) : List Nat → List Nat
  | [] => [n]
  | m :: ms => if n ≤ m then n :: m :: ms else m :: insertSorted n ms

/-- Python `list.sort()` on a list of naturals (ascending insertion sort). -/
def pySort (l : List Nat) : List Nat := l.foldr insertSorted []

/-- `get_legal_bids`. -/
def get_legal_bids (g : GameState) : List Nat :=
  if g.passed.getD g.current_player_id false then []
  else
    match g.highest_bid with
    | none => [BID_PASS] ++ [BID_20, BID_25, BID_30]
    | some hb =>
      let actions := [BID_PASS] ++
        (if hb < BID_25 then [BID_25, BID_30]
         else if hb < BID_30 then [BID_30]
         else [])
      if g.current_player_id = g.dealer_id then actions ++ [BID_HOLD]
      else actions

/-- `get_legal_declarations`. -/
def get_legal_declarations (_g : GameState) : List Nat :=
  [0, 1, 2, 3]

/-- `get_legal_discards`. -/
def get_legal_discards (g : GameState) : List Nat :=
  let hand_size := (g.hands.getD g.current_player_id []).length
  if some g.current_player_id = g.highest_bidder then
    if hand_size > 5 then List.range hand_size
    else if hand_size > 0 then List.range hand_size ++ [DISCARD_DONE]
    else [DISCARD_DONE]
  else
    List.range hand_size ++ [DISCARD_DONE]

/-- `get_legal_plays`.  The sub-case where the trump-led branch is entered
but there is no lead card to inspect (`self.current_trick[self.trick_starter]`
with `trick_starter = None` or an empty slot would raise in Python) returns
`[]`; the state invariants below show the branch itself is never entered in a
reachable state. -/
def get_legal_plays (g : GameState) : List Nat :=
  let hand := g.hands.getD g.current_player_id []
  if hand.length = 0 ∨ g.trick_starter = some g.current_player_id then
    List.range hand.length
  else
    let test_mode := g.test_strict_suit_following
    let lead_suit_cards := idxWhere hand
      (fun card => pyEq (.pyStr card.suit) g.trick_lead_suit)
    let trump_cards :=
      if test_mode then
        idxWhere hand (fun card => pyEq (.pyStr card.suit) g.trump_suit)
      else
        idxWhere hand (fun card => isTrumpCard card g.trump_suit)
    let high_trumps := idxWhere hand
      (fun card => (pyEq (.pyStr card.suit) g.trump_suit &&
                      (card.rank == .r5 || card.rank == .rJ)) ||
                   (!test_mode && card.rank == .rA && card.suit == .H))
    if pyEq g.trick_lead_suit g.trump_suit then
      if trump_cards ≠ [] then
        match (match g.trick_starter with
               | some ts => g.current_trick.getD ts none
               | none => none) with
        | none => []
        | some lead_card =>
          if test_mode then
            let is_high_trump_led :=
              pyEq (.pyStr lead_card.suit) g.trump_suit &&
                (lead_card.rank == .r5 || lead_card.rank == .rJ)
            if is_high_trump_led then trump_cards
            else
              let non_high_trump_indices :=
                trump_cards.filter (fun i => i ∉ high_trumps)
              if non_high_trump_indices ≠ [] then non_high_trump_indices
              else List.range hand.length
          else
            let is_high_trump_led :=
              (pyEq (.pyStr lead_card.suit) g.trump_suit &&
                (lead_card.rank == .r5 || lead_card.rank == .rJ)) ||
              (lead_card.rank == .rA && lead_card.suit == .H)
            if is_high_trump_led then trump_cards
            else List.range hand.length
      else List.range hand.length
    else
      if test_mode then
        if lead_suit_cards ≠ [] then lead_suit_cards
        else List.range hand.length
      else
        let legal_plays := lead_suit_cards ++
          trump_cards.filter (fun i => i ∉ lead_suit_cards)
        let legal_plays :=
          if legal_plays = [] then List.range hand.length else legal_plays
        pySort legal_plays

/-- `get_legal_actions`, with its fallback defaults. -/
def get_legal_actions (g : GameState) : List Nat :=
  let actions :=
    if g.phase = PHASE_AUCTION then get_legal_bids g
    else if g.phase = PHASE_DECLARATION then get_legal_declarations g
    else if g.phase = PHASE_DISCARD then get_legal_discards g
    else if g.phase = PHASE_GAMEPLAY then get_legal_plays g
    else []
  if actions = [] ∧ g.phase = PHASE_AUCTION then [BID_PASS]
  else if actions = [] ∧ g.phase = PHASE_DISCARD then [0]
  else if actions = [] then
    let hand_size := (g.hands.getD g.current_player_id []).length
    if hand_size > 0 then List.range hand_size else [0]
  else actions

/-! ## Trick resolution -/

/-- `wins_over(card1, card2, trump_suit)`; the function also reads
`self.trick_lead_suit`, passed here explicitly as `trick_lead_suit`. -/
def wins_over (card1 card2 : Option Card) (trump_suit trick_lead_suit : PySuit) :
    Bool :=
  match card1 with
  | none => false
  | some c1 =>
    match card2 with
    | none => true
    | some c2 =>
      let card1_is_trump := isTrumpCard c1 trump_suit
      let card2_is_trump := isTrumpCard c2 trump_suit
      if card1_is_trump && !card2_is_trump then true
      else if !card1_is_trump && card2_is_trump then false
      else if card1_is_trump && card2_is_trump then
        get_card_rank c2 trump_suit < get_card_rank c1 trump_suit
      else if c1.suit = c2.suit then
        get_card_rank c2 trump_suit < get_card_rank c1 trump_suit
      else if pyEq (.pyStr c1.suit) trick_lead_suit &&
              !pyEq (.pyStr c2.suit) trick_lead_suit then true
      else false

/-- The reduction loop of `get_trick_winner`: fold over seats 0..3 keeping
the current best, skipping the starter seat and empty slots. -/
def trickReduce (trick : List (Option Card)) (trump lead : PySuit)
    (starter_id : Nat) : Nat :=
  (List.foldl
    (fun (acc : Nat × Option Card) i =>
      if i = starter_id then acc
      else
        match trick.getD i none with
        | none => acc
        | some card =>
          if wins_over (some card) acc.2 trump lead then (i, some card) else acc)
    (starter_id, trick.getD starter_id none) [0, 1, 2, 3]).1

/-- `get_trick_winner`: the starter of the reduction is the *first non-empty
slot* of `current_trick` (not `trick_starter`), and the lead suit used for
the comparisons is that slot's card's suit.  With no card in the trick the
code returns `self.trick_starter` (possibly `None`). -/
def get_trick_winner (g : GameState) : Option Nat :=
  match g.current_trick.findIdx? (·.isSome) with
  | none => g.trick_starter
  | some starter_id =>
    match g.current_trick.getD starter_id none with
    | none => g.trick_starter   -- unreachable: slot `starter_id` is some
    | some lead_card =>
      some (trickReduce g.current_trick g.trump_suit (.pyStr lead_card.suit)
        starter_id)

/-- `end_trick`: resolve the trick, credit the winner, archive the trick and
reset the per-trick state.  `tricks_won[None]` (no winner) is a `TypeError`
and an out-of-range winner an `IndexError`. -/
def end_trick (g : GameState) : Except PyErr GameState :=
  match get_trick_winner g with
  | none => .error .typeError
  | some w =>
    if w < g.tricks_won.length then
      .ok { g with
        trick_winner := some w,
        tricks_won := g.tricks_won.set w (g.tricks_won.getD w 0 + 1),
        trick_history := g.trick_history ++ [g.current_trick],
        trick_winners := g.trick_winners ++ [w],
        trick_count := g.trick_count + 1,
        trick_starter := some w,
        current_player_id := w,
        trick_lead_suit := .pyNone,
        current_trick := [none, none, none, none] }
    else .error .indexError

/-! ## Scoring -/

/-- `score_hand`: record the raw hand points and whether the bid was made.
`self.highest_bidder % 2` with `None` is a `TypeError`, `BID_VALUES[None]` a
`KeyError`, and comparing an `int` against the `None` stored for `BID_HOLD`
a `TypeError`. -/
def score_hand (g : GameState) : Except PyErr GameState :=
  let ns_tricks := g.tricks_won.getD 0 0 + g.tricks_won.getD 2 0
  let ew_tricks := g.tricks_won.getD 1 0 + g.tricks_won.getD 3 0
  let ns_trick_points := ns_tricks * 5
  let ew_trick_points := ew_tricks * 5
  let ns_highest_trump_bonus :=
    match g.highest_trump_player with
    | some p => if p % 2 = 0 then 5 else 0
    | none => 0
  let ew_highest_trump_bonus :=
    match g.highest_trump_player with
    | some p => if p % 2 = 0 then 0 else 5
    | none => 0
  let ns_total_points := ns_trick_points + ns_highest_trump_bonus
  let ew_total_points := ew_trick_points + ew_highest_trump_bonus
  match g.highest_bidder with
  | none => .error .typeError
  | some hb =>
    match g.highest_bid with
    | none => .error .keyError
    | some hbid =>
      match BID_VALUES hbid with
      | none => .error .keyError
      | some none => .error .typeError
      | some (some bid_value) =>
        let bid_made :=
          if hb % 2 = 0 then bid_value ≤ ns_total_points
          else bid_value ≤ ew_total_points
        .ok { g with
          hand_points := [(ns_total_points : Int), (ew_total_points : Int)],
          bid_made := some bid_made }

/-- `end_hand`: score the hand, then bank each partnership's points — the
bidding partnership's raw points are replaced by `-bid_value` when the bid
failed — and sync the partners' totals. -/
def end_hand (g : GameState) : Except PyErr GameState := do
  let g ← score_hand g
  let bid_team := g.highest_bidder.map (· % 2)
  let bid_value ←
    match g.highest_bid with
    | none => pure none
    | some hbid =>
      match BID_VALUES hbid with
      | none => Except.error PyErr.keyError
      | some v => pure v
  let ns_game_points : Int := g.hand_points.getD 0 0
  let ew_game_points : Int := g.hand_points.getD 1 0
  let (ns_game_points, ew_game_points) :=
    match bid_team, bid_value with
    | some bt, some bv =>
      if bt = 0 then
        if !(g.bid_made.getD true) then (-(bv : Int), ew_game_points)
        else (ns_game_points, ew_game_points)
      else
        if !(g.bid_made.getD true) then (ns_game_points, -(bv : Int))
        else (ns_game_points, ew_game_points)
    | _, _ => (ns_game_points, ew_game_points)
  let p0 := g.points.getD 0 0 + ns_game_points
  let p1 := g.points.getD 1 0 + ew_game_points
  pure { g with
    points := (((g.points.set 0 p0).set 2 p0).set 1 p1).set 3 p1,
    highest_trump_played := none,
    highest_trump_player := none }

/-! ## Phase processing and `step` -/

/-- `is_bidding_over`. -/
def is_bidding_over (g : GameState) : Bool :=
  (g.passed.countP (· == true) == 3 && g.highest_bidder.isSome) ||
  g.passed.countP (· == true) == 4

/-- `is_hand_over`. -/
def is_hand_over (g : GameState) : Bool :=
  5 ≤ g.trick_count

/-- `check_game_over`: `max(self.points.values()) >= 125` (`False` on an
empty dict). -/
def check_game_over (g : GameState) : Bool :=
  match g.points.max? with
  | none => false
  | some m => 125 ≤ m

/-- `start_new_hand(fresh)`: rotate the dealer, deal a fresh shuffled deck
(`fresh` stands for the new dealer's shuffled 52 cards) and reset the
per-hand state.  Note `discard_pile`, `bid_made`, `trick_winner` and the
highest-trump fields are *not* reset here. -/
def start_new_hand (fresh : List Card) (g : GameState) : GameState :=
  let dealer_id := (g.dealer_id + 1) % 4
  let (hands, pot, deck) := deal_cards fresh
  { g with
    dealer_id := dealer_id,
    hands := hands, pot := pot, deck := deck,
    auction_starting_player := (dealer_id + 1) % 4,
    current_player_id := (dealer_id + 1) % 4,
    phase := PHASE_AUCTION,
    highest_bidder := none, highest_bid := none,
    bids := [none, none, none, none],
    passed := [false, false, false, false],
    trick_count := 0,
    tricks_won := [0, 0, 0, 0],
    trick_history := [], trick_winners := [],
    current_trick := [none, none, none, none],
    trick_lead_suit := .pyNone,
    trick_starter := none,
    trump_suit := .pyNone,
    hand_points := [0, 0] }

/-- The state update of `process_auction` before the end-of-bidding check:
record a pass, a bid, or a dealer hold. -/
def auction_bid_update (g : GameState) (action : Nat) : GameState :=
  if action = BID_PASS then
    { g with passed := g.passed.set g.current_player_id true }
  else if action = BID_20 ∨ action = BID_25 ∨ action = BID_30 then
    { g with
      highest_bidder := some g.current_player_id,
      highest_bid := some action,
      bids := g.bids.set g.current_player_id (some action) }
  else if action = BID_HOLD then
    -- dealer takes the highest bid (defaulting to BID_20 if none)
    let hb := match g.highest_bid with | none => BID_20 | some b => b
    { g with
      highest_bidder := some g.current_player_id,
      highest_bid := some hb,
      bids := g.bids.set g.current_player_id (some hb) }
  else g

/-- `process_auction`. -/
def process_auction (fresh : List Card) (g : GameState) (action : Nat) :
    GameState :=
  let g := auction_bid_update g action
  if is_bidding_over g then
    match g.highest_bidder with
    | none => start_new_hand fresh g
    | some hb =>
      { g with phase := PHASE_DECLARATION, current_player_id := hb }
  else
    { g with current_player_id := (g.current_player_id + 1) % 4 }

/-- `process_declaration`: store the *integer* suit action as the trump suit
and transfer the kitty to the highest bidder. -/
def process_declaration (g : GameState) (action : Nat) : GameState :=
  let g := { g with trump_suit := .pyInt action }
  let g :=
    match g.highest_bidder with
    | some hb =>
      if g.pot ≠ [] then
        { g with
          hands := g.hands.set hb (g.hands.getD hb [] ++ g.pot),
          pot := [] }
      else g
    | none => g
  { g with
    phase := PHASE_DISCARD,
    current_player_id := (g.dealer_id + 1) % 4 }

/-- `process_discard`.  A non-`DISCARD_DONE` action is an index into the
hand; an out-of-range index raises `ValueError`.  `list.remove(card)` removes
the first element identical to `hand[action]`; card objects are compared by
identity and no object occurs twice in a hand, so it removes exactly the
card at index `action`. -/
def process_discard (g : GameState) (action : Nat) : Except PyErr GameState :=
  if action = DISCARD_DONE then
    let next_player := (g.current_player_id + 1) % 4
    if next_player = g.auction_starting_player then
      match g.highest_bidder with
      | none => .error .typeError    -- (None + 1) % 4
      | some hb =>
        let trick_starter := (hb + 1) % 4
        let (deck, hands) := replenish_hands g.deck g.hands
        .ok { g with
          phase := PHASE_GAMEPLAY,
          trick_starter := some trick_starter,
          current_player_id := trick_starter,
          deck := deck, hands := hands }
    else
      .ok { g with current_player_id := next_player }
  else
    let hand := g.hands.getD g.current_player_id []
    if h : action < hand.length then
      let card := hand.get ⟨action, h⟩
      .ok { g with
        hands := g.hands.set g.current_player_id (hand.eraseIdx action),
        discard_pile := g.discard_pile ++ [card] }
    else .error .valueError

/-- In `process_play`: the first card of a trick fixes the lead suit. -/
def play_lead_update (g : GameState) (card : Card) : GameState :=
  if g.trick_starter = some g.current_player_id then
    { g with trick_lead_suit := .pyStr card.suit }
  else g

/-- In `process_play`: track the highest trump played this hand. -/
def play_highest_trump_update (g : GameState) (card : Card) : GameState :=
  if isTrumpCard card g.trump_suit &&
      (g.highest_trump_played.isNone ||
        wins_over (some card) g.highest_trump_played g.trump_suit
          g.trick_lead_suit) then
    { g with
      highest_trump_played := some card,
      highest_trump_player := some g.current_player_id }
  else g

/-- `process_play`.  `hand.pop(action)` with an out-of-range index raises
`IndexError`; this happens before any state is mutated. -/
def process_play (fresh : List Card) (g : GameState) (action : Nat) :
    Except PyErr GameState :=
  let hand := g.hands.getD g.current_player_id []
  if hand.isEmpty then
    -- warning branch: empty hand, skip to the next player
    .ok { g with current_player_id := (g.current_player_id + 1) % 4 }
  else
    if h : action < hand.length then
      let card := hand.get ⟨action, h⟩
      let g := { g with
        hands := g.hands.set g.current_player_id (hand.eraseIdx action),
        current_trick := g.current_trick.set g.current_player_id (some card) }
      -- the first card of the trick fixes the lead suit
      let g := play_lead_update g card
      -- track the highest trump played this hand
      let g := play_highest_trump_update g card
      let played_cards_count : Nat :=
        g.current_trick.countP (fun c => c.isSome)
      if played_cards_count = 4 then do
        let g ← end_trick g
        if is_hand_over g || g.hands.all (·.isEmpty) then do
          let g ← end_hand g
          if check_game_over g then
            pure g
          else
            pure (start_new_hand fresh g)
        else
          pure g
      else
        .ok { g with current_player_id := (g.current_player_id + 1) % 4 }
    else .error .indexError

/-- `step(action)`: dispatch on the active phase.  There is no legality
check; `fresh` stands for the shuffled deck used if a new hand is dealt
during this step. -/
def step (fresh : List Card) (g : GameState) (action : Nat) :
    Except PyErr GameState :=
  if g.phase = PHASE_AUCTION then .ok (process_auction fresh g action)
  else if g.phase = PHASE_DECLARATION then .ok (process_declaration g action)
  else if g.phase = PHASE_DISCARD then process_discard g action
  else if g.phase = PHASE_GAMEPLAY then process_play fresh g action
  else .ok g

/-- `init_game()` as run by `FortyfivesGame.__init__` with a freshly shuffled
deck `fresh`: deal, then start the auction at the seat left of the dealer. -/
def init_game (fresh : List Card) : GameState :=
  let (hands, pot, deck) := deal_cards fresh
  { dealer_id := 0,
    current_player_id := 1,
    auction_starting_player := 1,
    phase := PHASE_AUCTION,
    hands := hands,
    bids := [some 0, some 0, some 0, some 0],
    highest_bidder := none, highest_bid := none,
    passed := [false, false, false, false],
    trump_suit := .pyNone,
    current_trick := [none, none, none, none],
    trick_lead_suit := .pyNone,
    trick_winner := none,
    tricks_won := [0, 0, 0, 0],
    trick_count := 0,
    trick_starter := none,
    highest_trump_played := none,
    highest_trump_player := none,
    trick_history := [], trick_winners := [],
    points := [0, 0, 0, 0],
    hand_points := [0, 0],
    deck := deck, pot := pot,
    discard_pile := [],
    bid_made := none,
    test_strict_suit_following := false }

/-- The 52-card universe as a multiset. -/
def univCards : Multiset Card := (init_deck : Multiset Card)

/-- States reachable from a fresh game by legal actions.  Every shuffle is an
arbitrary permutation of the 52-card deck, supplied as the `fresh` argument. -/
inductive Reachable : GameState → Prop
  | init (d : List Card) :
      (d : Multiset Card) = univCards → Reachable (init_game d)
  | step (g g' : GameState) (a : Nat) (fresh : List Card) :
      Reachable g →
      (fresh : Multiset Card) = univCards →
      a ∈ get_legal_actions g →
      step fresh g a = .ok g' →
      Reachable g'

/-- Run a list of actions through `step`, requiring each to be legal;
`none` on an illegal action or an error. -/
def runSteps (fresh : List Card) : GameState → List Nat → Option GameState
  | g, [] => some g
  | g, a :: as =>
    if a ∈ get_legal_actions g then
      match step fresh g a with
      | .ok g' => runSteps fresh g' as
      | .error _ => none
    else none

theorem reachable_runSteps (fresh : List Card)
    (hf : (fresh : Multiset Card) = univCards) :
    ∀ (as : List Nat) (g g' : GameState),
      Reachable g → runSteps fresh g as = some g' → Reachable g' := by
  intro as
  induction as with
  | nil => intro g g' hg h; cases h; exact hg
  | cons a as ih =>
    intro g g' hg h
    unfold runSteps at h
    split at h
    · cases hst : step fresh g a with
      | ok g1 =>
        rw [hst] at h
        exact ih g1 g' (Reachable.step g g1 a fresh hg hf (by assumption) hst) h
      | error e => rw [hst] at h; cases h
    · cases h

/-! ## C1: the renege exemption on a trump lead -/

/-- The test `is_high_trump_led` of `get_legal_plays` (normal mode): the lead
card is a trump 5 or J, or the Ace of Hearts. -/
def is_high_trump_led (lead_card : Card) (trump : PySuit) : Bool :=
  (pyEq (.pyStr lead_card.suit) trump &&
    (lead_card.rank == .r5 || lead_card.rank == .rJ)) ||
  (lead_card.rank == .rA && lead_card.suit == .H)

/-- Gameplay state for the C1 scenario: trump Diamonds, seat 1 to act with
hand J♦ 5♦ A♥ K♥ Q♠, seat 0 led a card of the trump suit. -/
def c1State (lead_card : Card) : GameState :=
  { init_game init_deck with
    phase := PHASE_GAMEPLAY,
    trump_suit := .pyStr .D,
    trick_starter := some 0,
    current_player_id := 1,
    trick_lead_suit := .pyStr .D,
    current_trick := [some lead_card, none, none, none],
    hands := [[], [⟨.rJ, .D⟩, ⟨.r5, .D⟩, ⟨.rA, .H⟩, ⟨.rK, .H⟩, ⟨.rQ, .S⟩],
              [], []] }

/-- C1: in the gameplay phase, when the lead suit equals the trump suit and
the acting seat holds a trump-equivalent card, the legal plays are exactly
the trump-equivalent cards if the led card is a high trump (trump 5, trump J
or A♥) and the whole hand otherwise; in particular, with trump Diamonds and
hand J♦ 5♦ A♥ K♥ Q♠, a 3♦ lead makes all five cards legal and a 5♦ lead
exactly the cards at indices 0, 1, 2 (J♦, 5♦, A♥). -/
theorem c1_trump_lead_renege (g : GameState) (ts : Nat) (lead_card : Card)
    (hphase : g.phase = PHASE_GAMEPLAY)
    (hmode : g.test_strict_suit_following = false)
    (hne : g.hands.getD g.current_player_id [] ≠ [])
    (hstart : g.trick_starter = some ts)
    (hnotlead : ts ≠ g.current_player_id)
    (hslot : g.current_trick.getD ts none = some lead_card)
    (htr : pyEq g.trick_lead_suit g.trump_suit = true)
    (htc : idxWhere (g.hands.getD g.current_player_id [])
      (fun card => isTrumpCard card g.trump_suit) ≠ []) :
    get_legal_actions g =
      (if is_high_trump_led lead_card g.trump_suit then
        idxWhere (g.hands.getD g.current_player_id [])
          (fun card => isTrumpCard card g.trump_suit)
      else
        List.range (g.hands.getD g.current_player_id []).length) ∧
    get_legal_actions (c1State ⟨.r3, .D⟩) = [0, 1, 2, 3, 4] ∧
    get_legal_actions (c1State ⟨.r5, .D⟩) = [0, 1, 2] := by
  refine ⟨?_, by decide, by decide⟩
  have hlen : (g.hands.getD g.current_player_id []).length ≠ 0 := by
    simpa [List.length_eq_zero] using hne
  have hplays : get_legal_plays g =
      (if is_high_trump_led lead_card g.trump_suit then
        idxWhere (g.hands.getD g.current_player_id [])
          (fun card => isTrumpCard card g.trump_suit)
      else
        List.range (g.hands.getD g.current_player_id []).length) := by
    rw [get_legal_plays]
    rw [if_neg, if_pos htr]
    · rw [hmode]
      simp only [Bool.false_eq_true, if_false]
      rw [if_pos htc, hstart]
      simp only [hslot]
      rfl
    · rintro (h | h)
      · exact hlen h
      · rw [hstart] at h
        exact hnotlead (by injection h)
  have hnonempty : get_legal_plays g ≠ [] := by
    rw [hplays]
    split
    · exact htc
    · simpa [List.range_eq_nil] using hlen
  rw [get_legal_actions, hphase]
  norm_num [PHASE_GAMEPLAY, PHASE_AUCTION, PHASE_DECLARATION, PHASE_DISCARD]
  rw [if_neg hnonempty]
  simpa [List.getD_eq_getElem?_getD] using hplays

/-- Witness for `c1_trump_lead_renege` at the low-trump-lead instance. -/
theorem c1_trump_lead_renege_witness :
    (c1State ⟨.r3, .D⟩).phase = PHASE_GAMEPLAY ∧
    get_legal_actions (c1State ⟨.r3, .D⟩) =
      (if is_high_trump_led ⟨.r3, .D⟩ (c1State ⟨.r3, .D⟩).trump_suit then
        idxWhere ((c1State ⟨.r3, .D⟩).hands.getD 1 [])
          (fun card => isTrumpCard card (c1State ⟨.r3, .D⟩).trump_suit)
      else
        List.range ((c1State ⟨.r3, .D⟩).hands.getD 1 []).length) :=
  ⟨by decide,
    (c1_trump_lead_renege (c1State ⟨.r3, .D⟩) 0 ⟨.r3, .D⟩ (by decide) (by decide)
      (by decide) (by decide) (by decide) (by decide) (by decide) (by decide)).1⟩

/-! ## C2: trick-winner resolution -/

/-- The claim's beats-relation, written from the claim's words: a candidate
beats the current best iff it is trump-equivalent and the best is not, or
both are trump-equivalent and the candidate is stronger, or neither is and
they share a suit and the candidate is stronger, or neither is and the
candidate matches the lead suit while the best does not. -/
def claimBeats (cand best : Card) (lead trump : PySuit) : Bool :=
  (isTrumpCard cand trump && !isTrumpCard best trump) ||
  (isTrumpCard cand trump && isTrumpCard best trump &&
    decide (get_card_rank best trump < get_card_rank cand trump)) ||
  (!isTrumpCard cand trump && !isTrumpCard best trump &&
    cand.suit == best.suit &&
    decide (get_card_rank best trump < get_card_rank cand trump)) ||
  (!isTrumpCard cand trump && !isTrumpCard best trump &&
    pyEq (.pyStr cand.suit) lead && !pyEq (.pyStr best.suit) lead)

/-- The winner described by the claim: pairwise reduction over the four
seats, starting from seat `starter`'s card as current best and using `lead`
as the trick's lead suit. -/
def claimTrickWinner (trick : List (Option Card)) (starter : Nat)
    (lead trump : PySuit) : Nat :=
  (List.foldl
    (fun (acc : Nat × Option Card) i =>
      if i = starter then acc
      else
        match trick.getD i none with
        | none => acc
        | some card =>
          match acc.2 with
          | none => (i, some card)
          | some best => if claimBeats card best lead trump then (i, some card)
                         else acc)
    (starter, trick.getD starter none) [0, 1, 2, 3]).1

/-- A completed trick that seat 1 started by leading K♣ (so the lead suit is
Clubs); trump is Spades and no trump-equivalent card was played. -/
def c2State : GameState :=
  { init_game init_deck with
    phase := PHASE_GAMEPLAY,
    trump_suit := .pyStr .S,
    trick_starter := some 1,
    trick_lead_suit := .pyStr .C,
    current_trick := [some ⟨.rQ, .D⟩, some ⟨.rK, .C⟩, some ⟨.r3, .C⟩,
                      some ⟨.r7, .H⟩] }

/-- C2, counterexample: in the trick of `c2State` the reduction described by
the claim — starting from the trick starter's card (seat 1's K♣) with lead
suit Clubs — is won by seat 1, but `get_trick_winner` starts from the first
non-empty slot (seat 0) and uses that card's suit (Diamonds) as the lead, and
returns seat 0. -/
theorem c2_counterexample :
    c2State.trick_starter = some 1 ∧
    c2State.current_trick.all (·.isSome) = true ∧
    claimTrickWinner c2State.current_trick 1 c2State.trick_lead_suit
      c2State.trump_suit = 1 ∧
    get_trick_winner c2State = some 0 := by
  decide

/-- C2, amended: for a trick in which all four seats have played, the winner
returned by `get_trick_winner` is the claim's pairwise reduction started from
*seat 0's* card (the first non-empty slot) with *seat 0's card's suit* as the
lead suit — not from the trick starter's card with the true lead suit. -/
theorem c2_trick_winner_amended (g : GameState) (a b c d : Card)
    (h : g.current_trick = [some a, some b, some c, some d]) :
    get_trick_winner g =
      some (claimTrickWinner g.current_trick 0 (.pyStr a.suit) g.trump_suit) := by
  have hwc : ∀ (x y : Card) (t l : PySuit),
      wins_over (some x) (some y) t l = claimBeats x y l t := by
    intro x y t l
    simp only [wins_over, claimBeats]
    cases hx : isTrumpCard x t <;> cases hy : isTrumpCard y t <;>
      by_cases hs : x.suit = y.suit <;>
      simp [hx, hy, hs]
  rw [get_trick_winner, h]
  show some (trickReduce [some a, some b, some c, some d] g.trump_suit
      (.pyStr a.suit) 0) = _
  simp only [trickReduce, claimTrickWinner, List.foldl, List.getD, List.get?,
    Option.getD_some, show (0 : Nat) ≠ 0 ↔ False from by simp,
    reduceCtorEq, reduceIte, hwc]
  split_ifs <;> simp_all [hwc]

/-- Witness for `c2_trick_winner_amended` at the trick of `c2State`. -/
theorem c2_trick_winner_amended_witness :
    get_trick_winner c2State =
      some (claimTrickWinner c2State.current_trick 0
        (.pyStr (Card.mk .rQ .D).suit) c2State.trump_suit) :=
  c2_trick_winner_amended c2State ⟨.rQ, .D⟩ ⟨.rK, .C⟩ ⟨.r3, .C⟩ ⟨.r7, .H⟩
    (by decide)

/-! ## C3 and C4: hand scoring -/

/-- C3: ending a hand banks, for the non-bidding partnership, exactly its raw
hand points (5 per trick plus the 5-point highest-trump bonus), and for the
bidding partnership its raw points if they reach the bid value and minus the
bid value otherwise; both seats of a partnership are synced to the same
total. -/
theorem c3_end_hand_scoring (g : GameState) (hb bid bv : Nat)
    (t0 t1 t2 t3 : Nat) (p0 p1 p2 p3 : Int)
    (hhb : g.highest_bidder = some hb)
    (hbid : g.highest_bid = some bid)
    (hbv : BID_VALUES bid = some (some bv))
    (ht : g.tricks_won = [t0, t1, t2, t3])
    (hp : g.points = [p0, p1, p2, p3]) :
    (end_hand g).map (fun g' => (g'.hand_points, g'.points)) =
      (let raw0 : Nat := (t0 + t2) * 5 +
        (match g.highest_trump_player with
         | some p => if p % 2 = 0 then 5 else 0
         | none => 0)
       let raw1 : Nat := (t1 + t3) * 5 +
        (match g.highest_trump_player with
         | some p => if p % 2 = 0 then 0 else 5
         | none => 0)
       let d0 : Int := if hb % 2 = 0 then
          (if bv ≤ raw0 then (raw0 : Int) else -(bv : Int)) else (raw0 : Int)
       let d1 : Int := if hb % 2 = 0 then (raw1 : Int) else
          (if bv ≤ raw1 then (raw1 : Int) else -(bv : Int))
       .ok ([(raw0 : Int), (raw1 : Int)],
            [p0 + d0, p1 + d1, p0 + d0, p1 + d1])) := by
  rw [end_hand, score_hand]
  by_cases hteam : hb % 2 = 0 <;>
    by_cases h0 : bv ≤ (t0 + t2) * 5 +
      (match g.highest_trump_player with
       | some p => if p % 2 = 0 then 5 else 0
       | none => 0) <;>
    by_cases h1 : bv ≤ (t1 + t3) * 5 +
      (match g.highest_trump_player with
       | some p => if p % 2 = 0 then 0 else 5
       | none => 0) <;>
    simp [hhb, hbid, hbv, ht, hp, Except.instMonad, Bind.bind, Pure.pure,
      Except.bind, Except.map, Except.pure, List.getD, List.set,
      hteam, h0, h1]

/-- The claim's concrete scoring example: trump Spades, tricks_won
[1,3,1,0], highest trump played by seat 1, bid 30 held by seat 2. -/
def c3State : GameState :=
  { init_game init_deck with
    trump_suit := .pyStr .S,
    tricks_won := [1, 3, 1, 0],
    highest_trump_player := some 1,
    highest_trump_played := some ⟨.r5, .S⟩,
    highest_bidder := some 2,
    highest_bid := some BID_30 }

/-- Witness for `c3_end_hand_scoring`: the claim's example gives hand points
[10, 20] and game points [-30, 20, -30, 20]. -/
theorem c3_end_hand_scoring_witness :
    (end_hand c3State).map (fun g' => (g'.hand_points, g'.points)) =
      .ok ([10, 20], [-30, 20, -30, 20]) := by
  have h := c3_end_hand_scoring c3State 2 3 30 1 3 1 0 0 0 0 0
    (by decide) (by decide) (by decide) (by decide) (by decide)
  simpa using h

/-- The input of the repository's own `test_thirty_for_sixty_rule`: trump
Hearts, N/S win all five tricks and the highest trump, seat 0 bid 30. -/
def c4State : GameState :=
  { init_game init_deck with
    trump_suit := .pyStr .H,
    tricks_won := [3, 0, 2, 0],
    highest_trump_player := some 0,
    highest_trump_played := some ⟨.r5, .H⟩,
    highest_bidder := some 0,
    highest_bid := some BID_30 }

/-- C4 (code bug): on the repo's own test input a made 30-bid banks only the
raw 30 hand points — `end_hand` has no 30-for-60 doubling, although the test
(and the spec) demand game points of 60. -/
theorem c4_thirty_for_sixty_missing :
    ((end_hand c4State).toOption.map
      (fun g' => (g'.hand_points, g'.points, g'.bid_made))) =
      some ([30, 0], [30, 0, 30, 0], some true) ∧
    ((end_hand c4State).toOption.map (fun g' => g'.points.getD 0 0)) ≠
      some 60 := by
  decide

/-! ## C6: no legality check in `step` -/

/-- C6, counterexample: at the freshly dealt game, `BID_HOLD` is not a legal
action (the acting seat is not the dealer), yet `step` applies it without
error and mutates the state (no `IllegalAction` exists in the engine). -/
theorem c6_counterexample :
    BID_HOLD ∉ get_legal_actions (init_game init_deck) ∧
    (step init_deck (init_game init_deck) BID_HOLD).toOption =
      some (process_auction init_deck (init_game init_deck) BID_HOLD) ∧
    process_auction init_deck (init_game init_deck) BID_HOLD ≠
      init_game init_deck := by
  decide

/-- C6, amended: `step` validates nothing.  In the auction and declaration
phases it succeeds on *every* action, legal or not; errors arise only from
out-of-range card indices in the discard and play phases (Python
`ValueError`/`IndexError`), never as an `IllegalAction`. -/
theorem c6_step_never_checks_legality (g : GameState) (a : Nat)
    (fresh : List Card)
    (h : g.phase = PHASE_AUCTION ∨ g.phase = PHASE_DECLARATION) :
    ∃ g', step fresh g a = .ok g' := by
  rcases h with h | h <;> rw [step, h] <;>
    simp [PHASE_AUCTION, PHASE_DECLARATION]

/-- Witness for `c6_step_never_checks_legality`: the nonsense action 7 at the
fresh game still succeeds. -/
theorem c6_step_never_checks_legality_witness :
    (init_game init_deck).phase = PHASE_AUCTION ∧
    ∃ g', step init_deck (init_game init_deck) 7 = .ok g' :=
  ⟨by decide,
    c6_step_never_checks_legality (init_game init_deck) 7 init_deck
      (Or.inl (by decide))⟩

/-! ## Card-conservation bookkeeping -/

/-- All cards in a list of hands. -/
def handsCards (hs : List (List Card)) : Multiset Card :=
  (hs.flatten : Multiset Card)

/-- All cards in a trick (ignoring empty slots). -/
def trickCards (t : List (Option Card)) : Multiset Card :=
  (t.filterMap id : Multiset Card)

/-- All cards in the trick history. -/
def historyCards (h : List (List (Option Card))) : Multiset Card :=
  ((h.map (fun t => t.filterMap id)).flatten : Multiset Card)

/-- The multiset of cards the card-conservation claim sums: deck, kitty,
hands, current trick, historical tricks and the discard pile. -/
def cardUnion (g : GameState) : Multiset Card :=
  (g.deck : Multiset Card) + (g.pot : Multiset Card) + handsCards g.hands +
    trickCards g.current_trick + historyCards g.trick_history +
    (g.discard_pile : Multiset Card)

/-- The same sum without the discard pile. -/
def coreCards (g : GameState) : Multiset Card :=
  (g.deck : Multiset Card) + (g.pot : Multiset Card) + handsCards g.hands +
    trickCards g.current_trick + historyCards g.trick_history

theorem pyPop_spec (l : List Card) (h : l ≠ []) :
    (pyPop l).1 ::ₘ ((pyPop l).2 : Multiset Card) = (l : Multiset Card) ∧
    (pyPop l).2.length + 1 = l.length := by
  constructor
  · show l.getLastD ⟨.r2, .S⟩ ::ₘ (l.dropLast : Multiset Card) = _
    rw [List.getLastD_eq_getLast? , List.getLast?_eq_getLast l h]
    conv_rhs => rw [← List.dropLast_append_getLast h]
    simp only [Multiset.cons_coe, Multiset.coe_eq_coe]
    exact (List.perm_append_singleton _ _).symm
  · show l.dropLast.length + 1 = l.length
    rw [List.length_dropLast]
    have : l.length ≠ 0 := by simpa [List.length_eq_zero] using h
    omega

theorem getD_set {α : Type} (l : List α) (i j : Nat) (v d : α) :
    (l.set i v).getD j d =
      if i = j ∧ i < l.length then v else l.getD j d := by
  induction l generalizing i j with
  | nil => simp
  | cons a t ih =>
    cases i with
    | zero =>
      cases j <;> simp
    | succ i' =>
      cases j with
      | zero => simp
      | succ j' =>
        simp only [List.set, List.getD_cons_succ, List.length_cons, ih]
        by_cases hij : i' = j' <;> simp [hij]

theorem flatten_set_append (hs : List (List Card)) (p : Nat) (c : Card)
    (hp : p < hs.length) :
    (((hs.set p (hs.getD p [] ++ [c])).flatten : Multiset Card)) =
      c ::ₘ (hs.flatten : Multiset Card) := by
  induction hs generalizing p with
  | nil => simp at hp
  | cons h t ih =>
    cases p with
    | zero =>
      simp only [List.set, List.getD_cons_zero, List.flatten_cons]
      rw [← Multiset.coe_add, ← Multiset.coe_add]
      rw [← Multiset.singleton_add]
      simp only [← Multiset.coe_add, Multiset.coe_singleton]
      abel
    | succ p' =>
      simp only [List.set, List.getD_cons_succ, List.flatten_cons,
        List.length_cons] at *
      rw [← Multiset.coe_add, ← Multiset.coe_add, ih p' (by omega)]
      rw [← Multiset.singleton_add, ← Multiset.singleton_add]
      abel

theorem dealOnceTo_spec (deck : List Card) (hands : List (List Card)) (p : Nat)
    (hp : p < hands.length) (hne : deck ≠ []) :
    ((dealOnceTo deck hands p).2.flatten : Multiset Card) +
        ((dealOnceTo deck hands p).1 : Multiset Card) =
      (hands.flatten : Multiset Card) + (deck : Multiset Card) ∧
    (dealOnceTo deck hands p).1.length + 1 = deck.length ∧
    (dealOnceTo deck hands p).2.length = hands.length ∧
    ∀ i, ((dealOnceTo deck hands p).2.getD i []).length =
      (hands.getD i []).length + (if i = p then 1 else 0) := by
  obtain ⟨hm, hl⟩ := pyPop_spec deck hne
  refine ⟨?_, ?_, ?_, ?_⟩
  · show ((hands.set p (hands.getD p [] ++ [(pyPop deck).1])).flatten :
      Multiset Card) + ((pyPop deck).2 : Multiset Card) = _
    rw [flatten_set_append hands p _ hp]
    rw [← hm]
    rw [← Multiset.singleton_add, ← Multiset.singleton_add]
    abel
  · exact hl
  · simp [dealOnceTo]
  · intro i
    show ((hands.set p (hands.getD p [] ++ [(pyPop deck).1])).getD i []).length = _
    rw [getD_set]
    by_cases hip : p = i
    · subst hip
      simp [hp]
    · have hip' : ¬ i = p := fun h => hip h.symm
      simp [hip, hip']

theorem dealRound_spec (deck : List Card) (hands : List (List Card))
    (hlen : 4 ≤ deck.length) (hh : hands.length = 4) :
    ((dealRound deck hands).2.flatten : Multiset Card) +
        ((dealRound deck hands).1 : Multiset Card) =
      (hands.flatten : Multiset Card) + (deck : Multiset Card) ∧
    (dealRound deck hands).1.length + 4 = deck.length ∧
    (dealRound deck hands).2.length = 4 ∧
    ∀ i < 4, ((dealRound deck hands).2.getD i []).length =
      (hands.getD i []).length + 1 := by
  have hne0 : deck ≠ [] := by
    intro h; rw [h] at hlen; simp at hlen
  obtain ⟨m0, l0, n0, g0⟩ := dealOnceTo_spec deck hands 0 (by omega) hne0
  rcases e0 : dealOnceTo deck hands 0 with ⟨d0, hs0⟩
  rw [e0] at m0 l0 n0 g0
  dsimp only at m0 l0 n0 g0
  have hne1 : d0 ≠ [] := by
    intro h; subst h; simp at l0; omega
  obtain ⟨m1, l1, n1, g1⟩ := dealOnceTo_spec d0 hs0 1 (by omega) hne1
  rcases e1 : dealOnceTo d0 hs0 1 with ⟨d1, hs1⟩
  rw [e1] at m1 l1 n1 g1
  dsimp only at m1 l1 n1 g1
  have hne2 : d1 ≠ [] := by
    intro h; subst h; simp at l1; omega
  obtain ⟨m2, l2, n2, g2⟩ := dealOnceTo_spec d1 hs1 2 (by omega) hne2
  rcases e2 : dealOnceTo d1 hs1 2 with ⟨d2, hs2⟩
  rw [e2] at m2 l2 n2 g2
  dsimp only at m2 l2 n2 g2
  have hne3 : d2 ≠ [] := by
    intro h; subst h; simp at l2; omega
  obtain ⟨m3, l3, n3, g3⟩ := dealOnceTo_spec d2 hs2 3 (by omega) hne3
  rcases e3 : dealOnceTo d2 hs2 3 with ⟨d3, hs3⟩
  rw [e3] at m3 l3 n3 g3
  dsimp only at m3 l3 n3 g3
  have hres : dealRound deck hands = (d3, hs3) := by
    simp only [dealRound, e0, e1, e2, e3]
  rw [hres]
  refine ⟨?_, by simp; omega, by simp; omega, ?_⟩
  · calc (hs3.flatten : Multiset Card) + (d3 : Multiset Card)
        = (hs2.flatten : Multiset Card) + (d2 : Multiset Card) := m3
      _ = (hs1.flatten : Multiset Card) + (d1 : Multiset Card) := m2
      _ = (hs0.flatten : Multiset Card) + (d0 : Multiset Card) := m1
      _ = (hands.flatten : Multiset Card) + (deck : Multiset Card) := m0
  · intro i hi
    have e3' := g3 i
    have e2' := g2 i
    have e1' := g1 i
    have e0' := g0 i
    interval_cases i <;> simp_all

theorem deal_cards_spec (d : List Card) (h52 : d.length = 52) :
    ((deal_cards d).1.flatten : Multiset Card) +
        ((deal_cards d).2.1 : Multiset Card) +
        ((deal_cards d).2.2 : Multiset Card) = (d : Multiset Card) ∧
    (deal_cards d).1.length = 4 ∧
    (∀ i < 4, ((deal_cards d).1.getD i []).length = 5) ∧
    (deal_cards d).2.1.length = 3 ∧
    (deal_cards d).2.2.length = 29 := by
  obtain ⟨m1, l1, n1, g1⟩ := dealRound_spec d [[], [], [], []]
    (by omega) (by simp)
  rcases e1 : dealRound d [[], [], [], []] with ⟨d1, hs1⟩
  rw [e1] at m1 l1 n1 g1
  dsimp only at m1 l1 n1 g1
  obtain ⟨m2, l2, n2, g2⟩ := dealRound_spec d1 hs1 (by omega) n1
  rcases e2 : dealRound d1 hs1 with ⟨d2, hs2⟩
  rw [e2] at m2 l2 n2 g2
  dsimp only at m2 l2 n2 g2
  obtain ⟨m3, l3, n3, g3⟩ := dealRound_spec d2 hs2 (by omega) n2
  rcases e3 : dealRound d2 hs2 with ⟨d3, hs3⟩
  rw [e3] at m3 l3 n3 g3
  dsimp only at m3 l3 n3 g3
  obtain ⟨m4, l4, n4, g4⟩ := dealRound_spec d3 hs3 (by omega) n3
  rcases e4 : dealRound d3 hs3 with ⟨d4, hs4⟩
  rw [e4] at m4 l4 n4 g4
  dsimp only at m4 l4 n4 g4
  obtain ⟨m5, l5, n5, g5⟩ := dealRound_spec d4 hs4 (by omega) n4
  rcases e5 : dealRound d4 hs4 with ⟨d5, hs5⟩
  rw [e5] at m5 l5 n5 g5
  dsimp only at m5 l5 n5 g5
  obtain ⟨k1m, k1l⟩ := pyPop_spec d5 (by
    intro h; subst h; simp at l5; omega)
  rcases ek1 : pyPop d5 with ⟨c1, r1⟩
  rw [ek1] at k1m k1l
  dsimp only at k1m k1l
  obtain ⟨k2m, k2l⟩ := pyPop_spec r1 (by
    intro h; subst h; simp at k1l; omega)
  rcases ek2 : pyPop r1 with ⟨c2, r2⟩
  rw [ek2] at k2m k2l
  dsimp only at k2m k2l
  obtain ⟨k3m, k3l⟩ := pyPop_spec r2 (by
    intro h; subst h; simp at k2l; omega)
  rcases ek3 : pyPop r2 with ⟨c3, r3⟩
  rw [ek3] at k3m k3l
  dsimp only at k3m k3l
  have hres : deal_cards d = (hs5, [c1, c2, c3], r3) := by
    simp only [deal_cards, e1, e2, e3, e4, e5, ek1, ek2, ek3]
  rw [hres]
  refine ⟨?_, ?_, ?_, by simp, by simp; omega⟩
  · dsimp only
    have hflat : (hs5.flatten : Multiset Card) + (d5 : Multiset Card) =
        (d : Multiset Card) := by
      calc (hs5.flatten : Multiset Card) + (d5 : Multiset Card)
          = (hs4.flatten : Multiset Card) + (d4 : Multiset Card) := m5
        _ = (hs3.flatten : Multiset Card) + (d3 : Multiset Card) := m4
        _ = (hs2.flatten : Multiset Card) + (d2 : Multiset Card) := m3
        _ = (hs1.flatten : Multiset Card) + (d1 : Multiset Card) := m2
        _ = (([[], [], [], []] : List (List Card)).flatten : Multiset Card) +
              (d : Multiset Card) := m1
        _ = (d : Multiset Card) := by simp
    rw [← hflat, ← k1m, ← k2m, ← k3m]
    simp only [← Multiset.cons_coe, ← Multiset.singleton_add,
      Multiset.coe_nil, add_zero]
    abel
  · dsimp only
    omega
  · intro i hi
    dsimp only
    have e5' := g5 i hi
    have e4' := g4 i hi
    have e3' := g3 i hi
    have e2' := g2 i hi
    have e1' := g1 i hi
    interval_cases i <;> simp_all

theorem popN_spec : ∀ (n : Nat) (deck : List Card),
    ((popN n deck).1 : Multiset Card) + ((popN n deck).2 : Multiset Card) =
      (deck : Multiset Card) ∧
    (n ≤ deck.length →
      (popN n deck).1.length = n ∧ (popN n deck).2.length = deck.length - n) := by
  intro n
  induction n with
  | zero => intro deck; simp [popN]
  | succ m ih =>
    intro deck
    rw [popN]
    by_cases hd : deck.isEmpty
    · rw [if_pos hd]
      have : deck = [] := List.isEmpty_iff.mp hd
      subst this
      simp
    · rw [if_neg hd]
      have hne : deck ≠ [] := by
        intro h; subst h; simp at hd
      obtain ⟨pm, pl⟩ := pyPop_spec deck hne
      rcases ep : pyPop deck with ⟨c, d'⟩
      rw [ep] at pm pl
      dsimp only at pm pl
      obtain ⟨im, il⟩ := ih d'
      rcases er : popN m d' with ⟨cs, d''⟩
      rw [er] at im il
      dsimp only at im il
      dsimp only
      constructor
      · rw [← pm, ← im, ← Multiset.cons_coe, Multiset.cons_add, er]
      · intro hle
        obtain ⟨il1, il2⟩ := il (by omega)
        rw [er]
        dsimp only
        simp only [List.length_cons]
        omega

theorem replenishPlayer_spec (deck : List Card) (hand : List Card) :
    ((replenishPlayer deck hand).1 : Multiset Card) +
        ((replenishPlayer deck hand).2 : Multiset Card) =
      (deck : Multiset Card) + (hand : Multiset Card) ∧
    (hand.length ≤ 5 → 5 ≤ deck.length →
      (replenishPlayer deck hand).2.length = 5 ∧
      (replenishPlayer deck hand).1.length =
        deck.length - (5 - hand.length)) := by
  rw [replenishPlayer]
  by_cases hc : 5 - hand.length > 0 ∧ deck ≠ []
  · rw [if_pos hc]
    obtain ⟨pm, pl⟩ := popN_spec (min (5 - hand.length) deck.length) deck
    rcases ep : popN (min (5 - hand.length) deck.length) deck with ⟨cs, d'⟩
    rw [ep] at pm pl
    dsimp only at pm pl ⊢
    constructor
    · rw [← pm]
      simp only [← Multiset.coe_add]
      abel
    · intro h5 hd
      obtain ⟨pl1, pl2⟩ := pl (by omega)
      constructor
      · simp only [List.length_append]
        omega
      · omega
  · rw [if_neg hc]
    dsimp only
    constructor
    · abel
    · intro h5 hd
      have hne : deck ≠ [] := by
        intro h; subst h; simp at hd
      have : ¬ 5 - hand.length > 0 := by tauto
      constructor <;> omega

theorem replenish_hands_spec (deck : List Card) (hands : List (List Card))
    (hh : hands.length = 4) :
    ((replenish_hands deck hands).1 : Multiset Card) +
        handsCards (replenish_hands deck hands).2 =
      (deck : Multiset Card) + handsCards hands ∧
    (replenish_hands deck hands).2.length = 4 ∧
    ((∀ i < 4, (hands.getD i []).length ≤ 5) → 20 ≤ deck.length →
      ∀ i < 4, ((replenish_hands deck hands).2.getD i []).length = 5) := by
  obtain ⟨a, b, c, d, rfl⟩ : ∃ a b c d, hands = [a, b, c, d] := by
    match hands, hh with
    | [a, b, c, d], _ => exact ⟨a, b, c, d, rfl⟩
  obtain ⟨m0, l0⟩ := replenishPlayer_spec deck a
  rcases e0 : replenishPlayer deck a with ⟨k0, h0⟩
  rw [e0] at m0 l0
  dsimp only at m0 l0
  obtain ⟨m1, l1⟩ := replenishPlayer_spec k0 b
  rcases e1 : replenishPlayer k0 b with ⟨k1, h1⟩
  rw [e1] at m1 l1
  dsimp only at m1 l1
  obtain ⟨m2, l2⟩ := replenishPlayer_spec k1 c
  rcases e2 : replenishPlayer k1 c with ⟨k2, h2⟩
  rw [e2] at m2 l2
  dsimp only at m2 l2
  obtain ⟨m3, l3⟩ := replenishPlayer_spec k2 d
  rcases e3 : replenishPlayer k2 d with ⟨k3, h3⟩
  rw [e3] at m3 l3
  dsimp only at m3 l3
  have hres : replenish_hands deck [a, b, c, d] = (k3, [h0, h1, h2, h3]) := by
    simp only [replenish_hands, List.getD_cons_zero, List.getD_cons_succ,
      e0, e1, e2, e3]
    rfl
  rw [hres]
  refine ⟨?_, by simp, ?_⟩
  · dsimp only [handsCards]
    have : ((([h0, h1, h2, h3] : List (List Card)).flatten : List Card) :
        Multiset Card) = ↑h0 + ↑h1 + ↑h2 + ↑h3 := by
      simp only [List.flatten_cons, List.flatten_nil, List.append_nil,
        ← Multiset.coe_add]
      abel
    rw [this]
    have hab : ((([a, b, c, d] : List (List Card)).flatten : List Card) :
        Multiset Card) = ↑a + ↑b + ↑c + ↑d := by
      simp only [List.flatten_cons, List.flatten_nil, List.append_nil,
        ← Multiset.coe_add]
      abel
    rw [hab]
    calc (k3 : Multiset Card) + (↑h0 + ↑h1 + ↑h2 + ↑h3)
        = (↑k3 + ↑h3) + ↑h0 + ↑h1 + ↑h2 := by abel
      _ = (↑k2 + ↑d) + ↑h0 + ↑h1 + ↑h2 := by rw [m3]
      _ = (↑k2 + ↑h2) + ↑h0 + ↑h1 + ↑d := by abel
      _ = (↑k1 + ↑c) + ↑h0 + ↑h1 + ↑d := by rw [m2]
      _ = (↑k1 + ↑h1) + ↑h0 + ↑c + ↑d := by abel
      _ = (↑k0 + ↑b) + ↑h0 + ↑c + ↑d := by rw [m1]
      _ = (↑k0 + ↑h0) + ↑b + ↑c + ↑d := by abel
      _ = (↑deck + ↑a) + ↑b + ↑c + ↑d := by rw [m0]
      _ = ↑deck + (↑a + ↑b + ↑c + ↑d) := by abel
  · intro hle hdeck
    have ha := hle 0 (by omega)
    have hb := hle 1 (by omega)
    have hc := hle 2 (by omega)
    have hd := hle 3 (by omega)
    simp only [List.getD_cons_zero, List.getD_cons_succ] at ha hb hc hd
    obtain ⟨p0, q0⟩ := l0 ha (by omega)
    obtain ⟨p1, q1⟩ := l1 hb (by omega)
    obtain ⟨p2, q2⟩ := l2 hc (by omega)
    obtain ⟨p3, q3⟩ := l3 hd (by omega)
    intro i hi
    interval_cases i <;> simpa

/-! ## The card-conservation invariant -/

/-- Structural well-formedness used by the conservation induction. -/
def StructInv (g : GameState) : Prop :=
  g.hands.length = 4 ∧ g.current_trick.length = 4 ∧ g.tricks_won.length = 4 ∧
  g.current_player_id < 4 ∧ ∀ b, g.highest_bidder = some b → b < 4

/-- Conservation up to stale discards: the cards outside the discard pile,
together with the discards of the current hand (a sub-multiset of the pile),
form the 52-card universe. -/
def ConsInv (g : GameState) : Prop :=
  ∃ sub : Multiset Card, sub ≤ (g.discard_pile : Multiset Card) ∧
    coreCards g + sub = univCards

theorem length_of_perm52 (l : List Card) (h : (l : Multiset Card) = univCards) :
    l.length = 52 := by
  have := congrArg Multiset.card h
  simpa [univCards, init_deck] using this

theorem trickCards_none : trickCards [none, none, none, none] = 0 := rfl

theorem historyCards_nil : historyCards [] = 0 := rfl

theorem historyCards_append (hs : List (List (Option Card)))
    (t : List (Option Card)) :
    historyCards (hs ++ [t]) = historyCards hs + trickCards t := by
  simp only [historyCards, trickCards, List.map_append, List.flatten_append,
    List.map_cons, List.map_nil, List.flatten_cons, List.flatten_nil,
    List.append_nil, ← Multiset.coe_add]

theorem sc_start_new_hand (fresh : List Card) (g : GameState)
    (hf : (fresh : Multiset Card) = univCards) :
    StructInv (start_new_hand fresh g) ∧ ConsInv (start_new_hand fresh g) := by
  have hl : fresh.length = 52 := length_of_perm52 fresh hf
  obtain ⟨dm, dl, dg, dp, dd⟩ := deal_cards_spec fresh hl
  rcases e : deal_cards fresh with ⟨hs, pt, dk⟩
  rw [e] at dm dl dg dp dd
  dsimp only at dm dl dg dp dd
  have hres : start_new_hand fresh g =
      { g with
        dealer_id := (g.dealer_id + 1) % 4,
        hands := hs, pot := pt, deck := dk,
        auction_starting_player := ((g.dealer_id + 1) % 4 + 1) % 4,
        current_player_id := ((g.dealer_id + 1) % 4 + 1) % 4,
        phase := PHASE_AUCTION,
        highest_bidder := none, highest_bid := none,
        bids := [none, none, none, none],
        passed := [false, false, false, false],
        trick_count := 0,
        tricks_won := [0, 0, 0, 0],
        trick_history := [], trick_winners := [],
        current_trick := [none, none, none, none],
        trick_lead_suit := .pyNone,
        trick_starter := none,
        trump_suit := .pyNone,
        hand_points := [0, 0] } := by
    simp only [start_new_hand, e]
  rw [hres]
  refine ⟨⟨by simpa using dl, by simp, by simp, by simp [Nat.mod_lt], ?_⟩,
    0, Multiset.zero_le _, ?_⟩
  · intro b hb
    simp at hb
  · simp only [coreCards, handsCards, trickCards_none, historyCards_nil]
    rw [← hf, ← dm]
    abel

theorem sc_init_game (d : List Card) (hd : (d : Multiset Card) = univCards) :
    StructInv (init_game d) ∧ ConsInv (init_game d) := by
  have hl : d.length = 52 := length_of_perm52 d hd
  obtain ⟨dm, dl, dg, dp, dd⟩ := deal_cards_spec d hl
  rcases e : deal_cards d with ⟨hs, pt, dk⟩
  rw [e] at dm dl dg dp dd
  dsimp only at dm dl dg dp dd
  have hres : init_game d =
      { dealer_id := 0, current_player_id := 1, auction_starting_player := 1,
        phase := PHASE_AUCTION, hands := hs,
        bids := [some 0, some 0, some 0, some 0],
        highest_bidder := none, highest_bid := none,
        passed := [false, false, false, false], trump_suit := .pyNone,
        current_trick := [none, none, none, none],
        trick_lead_suit := .pyNone, trick_winner := none,
        tricks_won := [0, 0, 0, 0], trick_count := 0, trick_starter := none,
        highest_trump_played := none, highest_trump_player := none,
        trick_history := [], trick_winners := [], points := [0, 0, 0, 0],
        hand_points := [0, 0], deck := dk, pot := pt, discard_pile := [],
        bid_made := none, test_strict_suit_following := false } := by
    simp only [init_game, e]
  rw [hres]
  refine ⟨⟨by simpa using dl, by simp, by simp, by simp, ?_⟩,
    0, Multiset.zero_le _, ?_⟩
  · intro b hb
    simp at hb
  · simp only [coreCards, handsCards, trickCards_none, historyCards_nil]
    rw [← hd, ← dm]
    abel

theorem consInv_congr (g g' : GameState) (hc : ConsInv g)
    (hh : g'.hands = g.hands) (ht : g'.current_trick = g.current_trick)
    (hd : g'.deck = g.deck) (hp : g'.pot = g.pot)
    (hh2 : g'.trick_history = g.trick_history)
    (hdp : g'.discard_pile = g.discard_pile) : ConsInv g' := by
  obtain ⟨sub, hsub, hcore⟩ := hc
  refine ⟨sub, hdp ▸ hsub, ?_⟩
  have hcc : coreCards g' = coreCards g := by
    simp only [coreCards, handsCards, trickCards, historyCards, hh, ht, hd,
      hp, hh2]
  rw [hcc]
  exact hcore

theorem end_trick_spec (g g' : GameState) (hs : StructInv g)
    (h : end_trick g = .ok g') :
    StructInv g' ∧ coreCards g' = coreCards g ∧
    g'.discard_pile = g.discard_pile ∧ g'.hands = g.hands ∧
    g'.deck = g.deck ∧ g'.pot = g.pot ∧ g'.phase = g.phase ∧
    g'.highest_bidder = g.highest_bidder ∧
    g'.highest_bid = g.highest_bid ∧
    g'.trick_count = g.trick_count + 1 ∧
    g'.current_trick = [none, none, none, none] ∧
    (∃ w, w < 4 ∧ g'.trick_starter = some w ∧ g'.current_player_id = w) ∧
    g'.trump_suit = g.trump_suit ∧ g'.trick_lead_suit = .pyNone ∧
    g'.trick_history = g.trick_history ++ [g.current_trick] ∧
    g'.points = g.points := by
  obtain ⟨h1, h2, h3, h4, h5⟩ := hs
  rw [end_trick] at h
  cases hw : get_trick_winner g with
  | none => rw [hw] at h; cases h
  | some w =>
    rw [hw] at h
    dsimp only at h
    by_cases hlt : w < g.tricks_won.length
    · rw [if_pos hlt] at h
      cases h
      refine ⟨⟨by simpa using h1, by simp, by simpa using h3,
        by simpa using by omega, by simpa using h5⟩, ?_, by simp, by simp,
        by simp, by simp, by simp, by simp, by simp, by simp, by simp,
        ⟨w, by omega, by simp, by simp⟩, by simp, by simp, by simp, by simp⟩
      simp only [coreCards, handsCards]
      rw [historyCards_append, trickCards_none]
      abel
    · rw [if_neg hlt] at h
      cases h

theorem end_hand_fields (g g' : GameState) (h : end_hand g = .ok g') :
    g'.hands = g.hands ∧ g'.deck = g.deck ∧ g'.pot = g.pot ∧
    g'.current_trick = g.current_trick ∧
    g'.trick_history = g.trick_history ∧
    g'.discard_pile = g.discard_pile ∧
    g'.current_player_id = g.current_player_id ∧
    g'.phase = g.phase ∧ g'.trick_count = g.trick_count ∧
    g'.tricks_won = g.tricks_won ∧ g'.trick_starter = g.trick_starter ∧
    g'.highest_bidder = g.highest_bidder ∧
    g'.highest_bid = g.highest_bid ∧ g'.trump_suit = g.trump_suit ∧
    g'.trick_lead_suit = g.trick_lead_suit ∧
    g'.dealer_id = g.dealer_id ∧
    g'.auction_starting_player = g.auction_starting_player := by
  rw [end_hand, score_hand] at h
  cases hb : g.highest_bidder with
  | none =>
    rw [hb] at h
    dsimp only [bind, Except.bind] at h
    cases h
  | some hbv =>
    rw [hb] at h
    dsimp only at h
    cases hbid : g.highest_bid with
    | none =>
      rw [hbid] at h
      dsimp only [bind, Except.bind] at h
      cases h
    | some bid =>
      rw [hbid] at h
      dsimp only at h
      cases hv : BID_VALUES bid with
      | none =>
        rw [hv] at h
        dsimp only [bind, Except.bind] at h
        cases h
      | some vo =>
        rw [hv] at h
        cases vo with
        | none =>
          dsimp only [bind, Except.bind] at h
          cases h
        | some bv =>
          dsimp only [bind, Except.bind, pure, Except.pure] at h
          rw [hv] at h
          dsimp only at h
          cases h
          simp

theorem auction_bid_update_fields (g : GameState) (a : Nat) :
    (auction_bid_update g a).hands = g.hands ∧
    (auction_bid_update g a).current_trick = g.current_trick ∧
    (auction_bid_update g a).tricks_won = g.tricks_won ∧
    (auction_bid_update g a).current_player_id = g.current_player_id ∧
    (auction_bid_update g a).deck = g.deck ∧
    (auction_bid_update g a).pot = g.pot ∧
    (auction_bid_update g a).trick_history = g.trick_history ∧
    (auction_bid_update g a).discard_pile = g.discard_pile ∧
    (auction_bid_update g a).phase = g.phase ∧
    (auction_bid_update g a).dealer_id = g.dealer_id ∧
    ((auction_bid_update g a).highest_bidder = g.highest_bidder ∨
      (auction_bid_update g a).highest_bidder = some g.current_player_id) := by
  rw [auction_bid_update]
  split
  · simp
  · split
    · simp
    · split <;> simp

theorem sc_process_auction (fresh : List Card) (g : GameState) (a : Nat)
    (hf : (fresh : Multiset Card) = univCards)
    (hs : StructInv g) (hc : ConsInv g) :
    StructInv (process_auction fresh g a) ∧
    ConsInv (process_auction fresh g a) := by
  obtain ⟨h1, h2, h3, h4, h5⟩ := hs
  obtain ⟨f1, f2, f3, f4, f5, f6, f7, f8, f9, f10, f11⟩ :=
    auction_bid_update_fields g a
  have hs1 : StructInv (auction_bid_update g a) := by
    refine ⟨by rw [f1, h1], by rw [f2, h2], by rw [f3, h3], by rw [f4]; exact h4, ?_⟩
    intro b hb
    rcases f11 with f11 | f11
    · exact h5 b (f11 ▸ hb)
    · rw [f11] at hb
      injection hb with hb'
      omega
  have hc1 : ConsInv (auction_bid_update g a) :=
    consInv_congr g _ hc f1 f2 f5 f6 f7 f8
  rw [process_auction]
  by_cases hover : is_bidding_over (auction_bid_update g a)
  · rw [if_pos hover]
    cases hhb : (auction_bid_update g a).highest_bidder with
    | none => exact sc_start_new_hand fresh _ hf
    | some hb =>
      obtain ⟨k1, k2, k3, k4, k5⟩ := hs1
      refine ⟨⟨by simpa using k1, by simpa using k2, by simpa using k3,
        by simpa using k5 hb hhb, by simpa using k5 hb hhb⟩, ?_⟩
      exact consInv_congr _ _ hc1 (by simp) (by simp) (by simp) (by simp)
        (by simp) (by simp)
  · rw [if_neg hover]
    obtain ⟨k1, k2, k3, k4, k5⟩ := hs1
    refine ⟨⟨by simpa using k1, by simpa using k2, by simpa using k3,
      by simpa using Nat.mod_lt _ (by omega), by simpa using k5⟩, ?_⟩
    exact consInv_congr _ _ hc1 (by simp) (by simp) (by simp) (by simp)
      (by simp) (by simp)

/-! ## The phase invariant -/

/-- Position of seat `p` in the discard rotation that starts at seat `asp`. -/
def discOrd (asp p : Nat) : Nat := (p + 4 - asp) % 4

/-- A gameplay state in mid-hand shape: `ts` started the trick, `k` cards
have been played this trick (by seats `ts..ts+k-1`), and every seat still
holds `5 - trick_count` cards minus one if its card is on the table. -/
def NormalPlay (g : GameState) : Prop :=
  ∃ ts k, g.trick_starter = some ts ∧ ts < 4 ∧ k < 4 ∧
    g.current_player_id = (ts + k) % 4 ∧ g.trick_count ≤ 4 ∧
    (∀ j, j < 4 →
      ((g.current_trick.getD ((ts + j) % 4) none).isSome = true ↔ j < k)) ∧
    (∀ p, p < 4 →
      (g.hands.getD p []).length +
        (if (g.current_trick.getD p none).isSome then 1 else 0) +
        g.trick_count = 5)

/-- Phase-dependent structural invariant of reachable states. -/
def PhaseInv (g : GameState) : Prop :=
  (g.phase = PHASE_AUCTION ∨ g.phase = PHASE_DECLARATION ∨
    g.phase = PHASE_DISCARD ∨ g.phase = PHASE_GAMEPLAY) ∧
  g.auction_starting_player = (g.dealer_id + 1) % 4 ∧ g.dealer_id < 4 ∧
  (g.trump_suit = .pyNone ∨ ∃ n, g.trump_suit = .pyInt n ∧ n < 4) ∧
  (g.trick_lead_suit = .pyNone ∨ ∃ s, g.trick_lead_suit = .pyStr s) ∧
  (∀ v, g.highest_bid = some v → v = 1 ∨ v = 2 ∨ v = 3) ∧
  ((g.phase = PHASE_AUCTION ∨ g.phase = PHASE_DECLARATION) →
    (∀ i, i < 4 → (g.hands.getD i []).length = 5) ∧ g.pot.length = 3 ∧
    g.deck.length = 29 ∧ g.current_trick = [none, none, none, none] ∧
    g.trick_count = 0 ∧ g.trump_suit = .pyNone) ∧
  (g.phase = PHASE_DECLARATION → g.highest_bidder.isSome) ∧
  ((g.phase = PHASE_DISCARD ∨ g.phase = PHASE_GAMEPLAY) →
    (∃ n, g.trump_suit = .pyInt n ∧ n < 4)) ∧
  (g.phase = PHASE_DISCARD →
    g.deck.length = 29 ∧ g.current_trick = [none, none, none, none] ∧
    g.trick_count = 0 ∧
    ∃ b, g.highest_bidder = some b ∧ b < 4 ∧
      (∀ i, i < 4 → i ≠ b → (g.hands.getD i []).length ≤ 5) ∧
      (g.hands.getD b []).length ≤ 8 ∧
      (discOrd g.auction_starting_player b <
          discOrd g.auction_starting_player g.current_player_id →
        (g.hands.getD b []).length ≤ 5)) ∧
  (g.phase = PHASE_GAMEPLAY →
    (check_game_over g = true ∧ (∀ i, i < 4 → g.hands.getD i [] = [])) ∨
    NormalPlay g)

/-- The master invariant of reachable states. -/
def MasterInv (g : GameState) : Prop :=
  StructInv g ∧ ConsInv g ∧ PhaseInv g

/-! ### Pure facts about the legal-play computation -/

theorem idxWhere_lt (hand : List Card) (P : Card → Bool) :
    ∀ x ∈ idxWhere hand P, x < hand.length := by
  intro x hx
  simp only [idxWhere, List.mem_filter, List.mem_range] at hx
  exact hx.1

theorem mem_insertSorted (x n : Nat) (l : List Nat) :
    x ∈ insertSorted n l ↔ x = n ∨ x ∈ l := by
  induction l with
  | nil => simp [insertSorted]
  | cons m ms ih =>
    rw [insertSorted]
    split
    · simp
    · simp [ih]
      tauto

theorem mem_pySort (x : Nat) (l : List Nat) : x ∈ pySort l ↔ x ∈ l := by
  induction l with
  | nil => simp [pySort]
  | cons m ms ih =>
    simp only [pySort, List.foldr] at ih ⊢
    rw [mem_insertSorted]
    simp [ih]

theorem pySort_ne_nil (l : List Nat) (h : l ≠ []) : pySort l ≠ [] := by
  intro hc
  rcases l with _ | ⟨a, l⟩
  · exact h rfl
  · have : a ∈ pySort (a :: l) := (mem_pySort a (a :: l)).mpr (by simp)
    rw [hc] at this
    cases this

/-- Every legal play is an index into the acting hand. -/
theorem get_legal_plays_lt (g : GameState) :
    ∀ x ∈ get_legal_plays g,
      x < (g.hands.getD g.current_player_id []).length := by
  intro x hx
  rw [get_legal_plays] at hx
  dsimp only at hx
  repeat' split at hx
  all_goals try rw [mem_pySort] at hx
  all_goals try split at hx
  all_goals first
    | cases hx
    | exact List.mem_range.mp hx
    | exact idxWhere_lt _ _ x hx
    | exact idxWhere_lt _ _ x (List.mem_filter.mp hx).1
    | (rcases List.mem_append.mp hx with hm | hm
       exacts [idxWhere_lt _ _ x hm,
         idxWhere_lt _ _ x (List.mem_filter.mp hm).1])

/-- With a non-empty hand and no trump lead (the only reachable case, since
the trump field holds an `int`), the legal plays are non-empty. -/
theorem get_legal_plays_ne_nil (g : GameState)
    (hh : g.hands.getD g.current_player_id [] ≠ [])
    (hlt : pyEq g.trick_lead_suit g.trump_suit = false) :
    get_legal_plays g ≠ [] := by
  have hlen : (g.hands.getD g.current_player_id []).length ≠ 0 := by
    simpa [List.length_eq_zero] using hh
  have hrange : List.range (g.hands.getD g.current_player_id []).length ≠ [] := by
    simpa [List.range_eq_nil] using hlen
  rw [get_legal_plays]
  dsimp only
  rw [hlt]
  split
  · exact hrange
  · simp only [Bool.false_eq_true, if_false]
    split
    · split
      · assumption
      · exact hrange
    · apply pySort_ne_nil
      split
      · exact hrange
      · assumption

/-- In the gameplay phase with a non-empty hand and no trump lead, the legal
actions are exactly `get_legal_plays`. -/
theorem get_legal_actions_gameplay (g : GameState)
    (hp : g.phase = PHASE_GAMEPLAY)
    (hh : g.hands.getD g.current_player_id [] ≠ [])
    (hlt : pyEq g.trick_lead_suit g.trump_suit = false) :
    get_legal_actions g = get_legal_plays g := by
  have hne := get_legal_plays_ne_nil g hh hlt
  rw [get_legal_actions, hp]
  norm_num [PHASE_GAMEPLAY, PHASE_AUCTION, PHASE_DECLARATION, PHASE_DISCARD]
  simp [hne]

/-- In the gameplay phase with an empty hand, the legal actions are the
dummy `[0]`. -/
theorem get_legal_actions_gameplay_empty (g : GameState)
    (hp : g.phase = PHASE_GAMEPLAY)
    (hh : g.hands.getD g.current_player_id [] = []) :
    get_legal_actions g = [0] := by
  have hh' : g.hands[g.current_player_id]?.getD [] = [] := by
    rw [← List.getD_eq_getElem?_getD]
    exact hh
  have hplays : get_legal_plays g = [] := by
    rw [get_legal_plays]
    dsimp only
    rw [if_pos (Or.inl (by simp [hh']))]
    simp [hh']
  rw [get_legal_actions, hp]
  norm_num [PHASE_GAMEPLAY, PHASE_AUCTION, PHASE_DECLARATION, PHASE_DISCARD]
  simp [hplays, hh']

/-- The legal discards are hand indices or the done sentinel. -/
theorem get_legal_discards_mem (g : GameState) :
    ∀ x ∈ get_legal_discards g,
      x = DISCARD_DONE ∨
      x < (g.hands.getD g.current_player_id []).length := by
  intro x hx
  rw [get_legal_discards] at hx
  repeat' split at hx
  all_goals
    first
      | (exact Or.inr (List.mem_range.mp hx))
      | (simp only [List.mem_append, List.mem_range, List.mem_singleton]
           at hx
         tauto)
      | (rw [List.mem_singleton] at hx; exact Or.inl hx)

/-- The legal discards are never empty. -/
theorem get_legal_discards_ne_nil (g : GameState) :
    get_legal_discards g ≠ [] := by
  rw [get_legal_discards]
  split
  · split
    · simp only [ne_eq, List.range_eq_nil]
      omega
    · split
      · simp
      · simp
  · simp

/-- In the discard phase the legal actions are exactly
`get_legal_discards`. -/
theorem get_legal_actions_discard (g : GameState)
    (hp : g.phase = PHASE_DISCARD) :
    get_legal_actions g = get_legal_discards g := by
  have hne := get_legal_discards_ne_nil g
  rw [get_legal_actions, hp]
  norm_num [PHASE_GAMEPLAY, PHASE_AUCTION, PHASE_DECLARATION, PHASE_DISCARD]
  simp [hne]

/-- In the declaration phase the legal actions are the four suits. -/
theorem get_legal_actions_declaration (g : GameState)
    (hp : g.phase = PHASE_DECLARATION) :
    get_legal_actions g = [0, 1, 2, 3] := by
  rw [get_legal_actions, hp]
  norm_num [PHASE_GAMEPLAY, PHASE_AUCTION, PHASE_DECLARATION, PHASE_DISCARD,
    get_legal_declarations]
  simp

/-! ### Card-movement lemmas -/

theorem flatten_set (hs : List (List Card)) (p : Nat) (v : List Card)
    (hp : p < hs.length) :
    ((hs.set p v).flatten : Multiset Card) + (hs.getD p [] : Multiset Card) =
      (hs.flatten : Multiset Card) + (v : Multiset Card) := by
  induction hs generalizing p with
  | nil => simp at hp
  | cons h t ih =>
    cases p with
    | zero =>
      simp only [List.set, List.getD_cons_zero, List.flatten_cons,
        ← Multiset.coe_add]
      abel
    | succ p' =>
      simp only [List.set, List.getD_cons_succ, List.flatten_cons,
        List.length_cons] at *
      have := ih p' (by omega)
      simp only [← Multiset.coe_add] at this ⊢
      calc (h : Multiset Card) + ↑(t.set p' v).flatten + ↑(t.getD p' [])
          = ↑h + (↑(t.set p' v).flatten + ↑(t.getD p' [])) := by abel
        _ = ↑h + (↑t.flatten + ↑v) := by rw [this]
        _ = ↑h + ↑t.flatten + ↑v := by abel

theorem flatten_set_append_many (hs : List (List Card)) (p : Nat)
    (cs : List Card) (hp : p < hs.length) :
    ((hs.set p (hs.getD p [] ++ cs)).flatten : Multiset Card) =
      (hs.flatten : Multiset Card) + (cs : Multiset Card) := by
  have h := flatten_set hs p (hs.getD p [] ++ cs) hp
  have h2 : ((hs.getD p [] ++ cs : List Card) : Multiset Card) =
      (hs.getD p [] : Multiset Card) + (cs : Multiset Card) := by
    simp [← Multiset.coe_add]
  rw [h2] at h
  have := add_right_cancel (a := ((hs.set p (hs.getD p [] ++ cs)).flatten :
    Multiset Card)) (b := (hs.getD p [] : Multiset Card))
    (c := (hs.flatten : Multiset Card) + (cs : Multiset Card))
  apply this
  rw [h]
  abel

theorem eraseIdx_cons_multiset (l : List Card) (i : Nat) (h : i < l.length) :
    l.get ⟨i, h⟩ ::ₘ ((l.eraseIdx i : List Card) : Multiset Card) =
      (l : Multiset Card) := by
  induction l generalizing i with
  | nil => simp at h
  | cons a t ih =>
    cases i with
    | zero => simp [List.eraseIdx, Multiset.cons_coe]
    | succ i' =>
      simp only [List.length_cons] at h
      have := ih i' (by omega)
      simp only [List.get, List.eraseIdx, ← Multiset.cons_coe]
      rw [Multiset.cons_swap]
      rw [this]

theorem flatten_set_erase (hs : List (List Card)) (p : Nat) (i : Nat)
    (hp : p < hs.length) (hi : i < (hs.getD p []).length) :
    ((hs.set p ((hs.getD p []).eraseIdx i)).flatten : Multiset Card) +
        {(hs.getD p []).get ⟨i, hi⟩} =
      (hs.flatten : Multiset Card) := by
  have h := flatten_set hs p ((hs.getD p []).eraseIdx i) hp
  have h2 := eraseIdx_cons_multiset (hs.getD p []) i hi
  apply add_right_cancel (b := ((hs.getD p []).eraseIdx i : Multiset Card))
  calc ((hs.set p ((hs.getD p []).eraseIdx i)).flatten : Multiset Card) +
        {(hs.getD p []).get ⟨i, hi⟩} + ((hs.getD p []).eraseIdx i : Multiset Card)
      = ((hs.set p ((hs.getD p []).eraseIdx i)).flatten : Multiset Card) +
          ((hs.getD p []).get ⟨i, hi⟩ ::ₘ ((hs.getD p []).eraseIdx i :
            Multiset Card)) := by
        rw [← Multiset.singleton_add]
        abel
    _ = ((hs.set p ((hs.getD p []).eraseIdx i)).flatten : Multiset Card) +
          (hs.getD p [] : Multiset Card) := by rw [h2]
    _ = (hs.flatten : Multiset Card) +
          ((hs.getD p []).eraseIdx i : Multiset Card) := h

theorem trickCards_set_some (t : List (Option Card)) (p : Nat) (c : Card)
    (hp : p < t.length) (hnone : t.getD p none = none) :
    trickCards (t.set p (some c)) = c ::ₘ trickCards t := by
  induction t generalizing p with
  | nil => simp at hp
  | cons o t' ih =>
    cases p with
    | zero =>
      simp only [List.getD_cons_zero] at hnone
      subst hnone
      simp [trickCards, List.filterMap, Multiset.cons_coe]
    | succ p' =>
      simp only [List.length_cons] at hp
      simp only [List.getD_cons_succ] at hnone
      have := ih p' (by omega) hnone
      simp only [List.set, trickCards, List.filterMap] at this ⊢
      cases o with
      | none => simpa using this
      | some c' =>
        dsimp only [id]
        rw [← Multiset.cons_coe, ← Multiset.cons_coe]
        rw [Multiset.cons_swap]
        rw [this]

/-! ### Master-invariant preservation -/

theorem list_len4 {α : Type} (l : List α) (h : l.length = 4) :
    ∃ a b c d, l = [a, b, c, d] := by
  match l, h with
  | [a, b, c, d], _ => exact ⟨a, b, c, d, rfl⟩

theorem master_start_new_hand (fresh : List Card) (g : GameState)
    (hf : (fresh : Multiset Card) = univCards) :
    MasterInv (start_new_hand fresh g) := by
  obtain ⟨hs, hc⟩ := sc_start_new_hand fresh g hf
  refine ⟨hs, hc, ?_⟩
  have hl : fresh.length = 52 := length_of_perm52 fresh hf
  obtain ⟨dm, dl, dg, dp, dd⟩ := deal_cards_spec fresh hl
  rcases e : deal_cards fresh with ⟨hhs, pt, dk⟩
  rw [e] at dm dl dg dp dd
  dsimp only at dm dl dg dp dd
  have e1 : (start_new_hand fresh g).hands = hhs := by
    simp [start_new_hand, e]
  have e2 : (start_new_hand fresh g).pot = pt := by
    simp [start_new_hand, e]
  have e3 : (start_new_hand fresh g).deck = dk := by
    simp [start_new_hand, e]
  refine ⟨?_, ?_, ?_, ?_, ?_, ?_, ?_, ?_, ?_, ?_, ?_⟩
  · left
    simp [start_new_hand, e]
  · simp [start_new_hand, e]
  · simp [start_new_hand, e, Nat.mod_lt]
  · left
    simp [start_new_hand, e]
  · left
    simp [start_new_hand, e]
  · intro v hv
    rw [show (start_new_hand fresh g).highest_bid = none from by
      simp [start_new_hand, e]] at hv
    cases hv
  · intro _
    refine ⟨?_, ?_, ?_, ?_, ?_, ?_⟩
    · intro i hi
      rw [e1]
      exact dg i hi
    · rw [e2]; exact dp
    · rw [e3]; exact dd
    · simp [start_new_hand, e]
    · simp [start_new_hand, e]
    · simp [start_new_hand, e]
  · intro hph
    rw [show (start_new_hand fresh g).phase = PHASE_AUCTION from by
      simp [start_new_hand, e]] at hph
    simp [PHASE_AUCTION, PHASE_DECLARATION] at hph
  · intro hph
    rw [show (start_new_hand fresh g).phase = PHASE_AUCTION from by
      simp [start_new_hand, e]] at hph
    simp [PHASE_AUCTION, PHASE_DECLARATION, PHASE_DISCARD,
      PHASE_GAMEPLAY] at hph
  · intro hph
    rw [show (start_new_hand fresh g).phase = PHASE_AUCTION from by
      simp [start_new_hand, e]] at hph
    simp [PHASE_AUCTION, PHASE_DISCARD] at hph
  · intro hph
    rw [show (start_new_hand fresh g).phase = PHASE_AUCTION from by
      simp [start_new_hand, e]] at hph
    simp [PHASE_AUCTION, PHASE_GAMEPLAY] at hph

theorem master_init_game (d : List Card)
    (hd : (d : Multiset Card) = univCards) :
    MasterInv (init_game d) := by
  obtain ⟨hs, hc⟩ := sc_init_game d hd
  refine ⟨hs, hc, ?_⟩
  have hl : d.length = 52 := length_of_perm52 d hd
  obtain ⟨dm, dl, dg, dp, dd⟩ := deal_cards_spec d hl
  rcases e : deal_cards d with ⟨hhs, pt, dk⟩
  rw [e] at dm dl dg dp dd
  dsimp only at dm dl dg dp dd
  refine ⟨Or.inl (by simp [init_game, e]), by simp [init_game, e],
    by simp [init_game, e], Or.inl (by simp [init_game, e]),
    Or.inl (by simp [init_game, e]), ?_, ?_, ?_, ?_, ?_, ?_⟩
  · intro v hv
    rw [show (init_game d).highest_bid = none from by
      simp [init_game, e]] at hv
    cases hv
  · intro _
    refine ⟨?_, ?_, ?_, by simp [init_game, e], by simp [init_game, e],
      by simp [init_game, e]⟩
    · intro i hi
      rw [show (init_game d).hands = hhs from by simp [init_game, e]]
      exact dg i hi
    · rw [show (init_game d).pot = pt from by simp [init_game, e]]
      exact dp
    · rw [show (init_game d).deck = dk from by simp [init_game, e]]
      exact dd
  all_goals
    intro hph
  all_goals
    rw [show (init_game d).phase = PHASE_AUCTION from by
      simp [init_game, e]] at hph
  · simp [PHASE_AUCTION, PHASE_DECLARATION] at hph
  · simp [PHASE_AUCTION, PHASE_DECLARATION, PHASE_DISCARD,
      PHASE_GAMEPLAY] at hph
  · simp [PHASE_AUCTION, PHASE_DISCARD] at hph
  · simp [PHASE_AUCTION, PHASE_GAMEPLAY] at hph

theorem auction_bid_update_more (g : GameState) (a : Nat) :
    (auction_bid_update g a).trick_count = g.trick_count ∧
    (auction_bid_update g a).trump_suit = g.trump_suit ∧
    (auction_bid_update g a).trick_lead_suit = g.trick_lead_suit ∧
    (auction_bid_update g a).auction_starting_player =
      g.auction_starting_player ∧
    (auction_bid_update g a).trick_starter = g.trick_starter ∧
    ((∀ v, g.highest_bid = some v → v = 1 ∨ v = 2 ∨ v = 3) →
      ∀ v, (auction_bid_update g a).highest_bid = some v →
        v = 1 ∨ v = 2 ∨ v = 3) := by
  rw [auction_bid_update]
  split
  · simp
  · split
    · rename_i hA
      refine ⟨by simp, by simp, by simp, by simp, by simp, ?_⟩
      intro _ v hv
      simp at hv
      simp only [BID_20, BID_25, BID_30] at hA
      omega
    · split
      · refine ⟨by simp, by simp, by simp, by simp, by simp, ?_⟩
        intro hb0 v hv
        simp at hv
        cases hbid : g.highest_bid with
        | none =>
          rw [hbid] at hv
          simp [BID_20] at hv
          omega
        | some b =>
          rw [hbid] at hv
          simp at hv
          subst hv
          exact hb0 b hbid
      · simp

theorem master_process_auction (fresh : List Card) (g : GameState) (a : Nat)
    (hf : (fresh : Multiset Card) = univCards) (hm : MasterInv g)
    (hph : g.phase = PHASE_AUCTION) :
    MasterInv (process_auction fresh g a) := by
  obtain ⟨hs, hc, hp⟩ := hm
  have sc := sc_process_auction fresh g a hf hs hc
  obtain ⟨f1, f2, f3, f4, f5, f6, f7, f8, f9, f10, f11⟩ :=
    auction_bid_update_fields g a
  obtain ⟨m1, m2, m3, m4, m5, m6⟩ := auction_bid_update_more g a
  obtain ⟨p1, p2, p3, p4, p5, p6, p7, p8, p9, p10, p11⟩ := hp
  obtain ⟨q1, q2, q3, q4, q5, q6⟩ := p7 (Or.inl hph)
  refine ⟨sc.1, sc.2, ?_⟩
  rw [process_auction] at sc ⊢
  by_cases hover : is_bidding_over (auction_bid_update g a)
  · rw [if_pos hover] at sc ⊢
    cases hhb : (auction_bid_update g a).highest_bidder with
    | none => exact (master_start_new_hand fresh _ hf).2.2
    | some hb =>
      refine ⟨Or.inr (Or.inl (by simp)), by simp [m4, f10, p2],
        by simp [f10, p3], by simp [m2]; exact p4, by simp [m3]; exact p5,
        ?_, ?_, by simp [hhb], ?_, ?_, ?_⟩
      · intro v hv
        simp at hv
        exact m6 p6 v hv
      · intro _
        refine ⟨?_, by simp [f6, q2], by simp [f5, q3],
          by simp [f2, q4], by simp [m1, q5], by simp [m2, q6]⟩
        intro i hi
        simpa [f1] using q1 i hi
      · intro hd
        simp [PHASE_DECLARATION, PHASE_DISCARD, PHASE_GAMEPLAY] at hd
      · intro hd
        simp [PHASE_DECLARATION, PHASE_DISCARD] at hd
      · intro hd
        simp [PHASE_DECLARATION, PHASE_GAMEPLAY] at hd
  · rw [if_neg hover] at sc ⊢
    refine ⟨Or.inl (by simp [f9, hph]), by simp [m4, f10, p2],
      by simp [f10, p3], by simp [m2]; exact p4, by simp [m3]; exact p5,
      ?_, ?_, ?_, ?_, ?_, ?_⟩
    · intro v hv
      simp at hv
      exact m6 p6 v hv
    · intro _
      refine ⟨?_, by simp [f6, q2], by simp [f5, q3],
        by simp [f2, q4], by simp [m1, q5], by simp [m2, q6]⟩
      intro i hi
      simpa [f1] using q1 i hi
    · intro hd
      simp [f9, hph, PHASE_AUCTION, PHASE_DECLARATION] at hd
    · intro hd
      simp [f9, hph, PHASE_AUCTION, PHASE_DECLARATION, PHASE_DISCARD,
        PHASE_GAMEPLAY] at hd
    · intro hd
      simp [f9, hph, PHASE_AUCTION, PHASE_DISCARD] at hd
    · intro hd
      simp [f9, hph, PHASE_AUCTION, PHASE_GAMEPLAY] at hd

set_option maxHeartbeats 1000000 in
theorem master_process_declaration (g : GameState) (a : Nat)
    (hm : MasterInv g) (hph : g.phase = PHASE_DECLARATION) (ha : a < 4) :
    MasterInv (process_declaration g a) := by
  obtain ⟨⟨h1, h2, h3, h4, h5⟩, hc, hp⟩ := hm
  obtain ⟨p1, p2, p3, p4, p5, p6, p7, p8, p9, p10, p11⟩ := hp
  obtain ⟨q1, q2, q3, q4, q5, q6⟩ := p7 (Or.inr hph)
  obtain ⟨hb, hhb⟩ := Option.isSome_iff_exists.mp (p8 hph)
  have hb4 : hb < 4 := h5 hb hhb
  have hpotne : g.pot ≠ [] := by
    intro hx
    rw [hx] at q2
    simp at q2
  have hres : process_declaration g a =
      { g with
        trump_suit := .pyInt a,
        hands := g.hands.set hb (g.hands.getD hb [] ++ g.pot),
        pot := [],
        phase := PHASE_DISCARD,
        current_player_id := (g.dealer_id + 1) % 4 } := by
    rw [process_declaration]
    dsimp only
    rw [hhb]
    dsimp only
    rw [if_pos (by simpa using hpotne)]
  rw [hres]
  refine ⟨⟨by simpa using h1, by simpa using h2, by simpa using h3,
    by simpa using Nat.mod_lt _ (by omega), by simpa using h5⟩, ?_, ?_⟩
  · obtain ⟨sub, hsub, hcore⟩ := hc
    refine ⟨sub, by simpa using hsub, ?_⟩
    rw [← hcore]
    simp only [coreCards, handsCards]
    rw [flatten_set_append_many g.hands hb g.pot (by omega)]
    simp only [Multiset.coe_nil]
    abel
  · refine ⟨Or.inr (Or.inr (Or.inl (by simp))), by simpa using p2,
      by simpa using p3, Or.inr ⟨a, by simp, ha⟩, by simpa using p5,
      by simpa using p6, ?_, ?_, ?_, ?_, ?_⟩
    · intro hd
      simp [PHASE_DISCARD, PHASE_AUCTION, PHASE_DECLARATION] at hd
    · intro hd
      simp [PHASE_DISCARD, PHASE_DECLARATION] at hd
    · intro _
      exact ⟨a, by simp, ha⟩
    · intro _
      refine ⟨by simpa using q3, by simpa using q4, by simpa using q5,
        hb, by simp [hhb], hb4, ?_, ?_, ?_⟩
      · intro i hi hib
        have hcond : ¬(hb = i ∧ hb < g.hands.length) := by
          rintro ⟨h', _⟩
          exact hib h'.symm
        rw [getD_set, if_neg hcond]
        have := q1 i hi
        omega
      · have hcond : hb = hb ∧ hb < g.hands.length := ⟨rfl, by omega⟩
        rw [getD_set, if_pos hcond]
        simp only [List.length_append]
        have := q1 hb hb4
        omega
      · simp only [p2, discOrd]
        omega
    · intro hd
      simp [PHASE_DISCARD, PHASE_GAMEPLAY] at hd


theorem discard_done_bidder_le5 (g : GameState)
    (hbid : g.highest_bidder = some g.current_player_id)
    (h8 : (g.hands.getD g.current_player_id []).length ≤ 8)
    (hleg : DISCARD_DONE ∈ get_legal_discards g) :
    (g.hands.getD g.current_player_id []).length ≤ 5 := by
  rw [get_legal_discards] at hleg
  rw [if_pos (by rw [hbid])] at hleg
  by_cases hsz : (g.hands.getD g.current_player_id []).length > 5
  · rw [if_pos hsz] at hleg
    have h16 := List.mem_range.mp hleg
    simp only [DISCARD_DONE] at h16
    omega
  · omega

theorem discOrd_inj (asp x y : Nat) (ha : asp < 4) (hx : x < 4) (hy : y < 4)
    (h : discOrd asp x = discOrd asp y) : x = y := by
  simp only [discOrd] at h
  omega

theorem getD_none4 (i : Nat) :
    ([none, none, none, none] : List (Option Card)).getD i none = none := by
  match i with
  | 0 => rfl
  | 1 => rfl
  | 2 => rfl
  | 3 => rfl
  | n + 4 => rfl

theorem master_process_discard (g g' : GameState) (a : Nat)
    (hm : MasterInv g) (hph : g.phase = PHASE_DISCARD)
    (hleg : a ∈ get_legal_actions g)
    (h : process_discard g a = .ok g') :
    MasterInv g' := by
  obtain ⟨⟨h1, h2, h3, h4, h5⟩, hc, hp⟩ := hm
  obtain ⟨p1, p2, p3, p4, p5, p6, p7, p8, p9, p10, p11⟩ := hp
  obtain ⟨hd1, hd2, hd3, b, hbb, hb4, hoth, hbd8, hbdone⟩ := p10 hph
  rw [get_legal_actions_discard g hph] at hleg
  have hasp4 : g.auction_starting_player < 4 := by
    rw [p2]; exact Nat.mod_lt _ (by omega)
  rw [process_discard] at h
  by_cases hdone : a = DISCARD_DONE
  · rw [if_pos hdone] at h
    dsimp only at h
    by_cases hnext : (g.current_player_id + 1) % 4 =
        g.auction_starting_player
    · rw [if_pos hnext, hbb] at h
      dsimp only at h
      rcases er : replenish_hands g.deck g.hands with ⟨dk, hs⟩
      rw [er] at h
      dsimp only at h
      injection h with h
      subst h
      have hble5 : (g.hands.getD b []).length ≤ 5 := by
        by_cases hbc : b = g.current_player_id
        · subst hbc
          exact discard_done_bidder_le5 g hbb hbd8 (hdone ▸ hleg)
        · apply hbdone
          have hne : discOrd g.auction_starting_player b ≠
              discOrd g.auction_starting_player g.current_player_id := by
            intro hx
            exact hbc (discOrd_inj _ _ _ hasp4 hb4 h4 hx)
          simp only [discOrd] at hne ⊢
          omega
      have hall5 : ∀ i, i < 4 → (g.hands.getD i []).length ≤ 5 := by
        intro i hi
        by_cases hib : i = b
        · subst hib; exact hble5
        · exact hoth i hi hib
      obtain ⟨rm, rl, rg⟩ := replenish_hands_spec g.deck g.hands h1
      rw [er] at rm rl rg
      dsimp only at rm rl rg
      have rg5 := rg hall5 (by omega)
      refine ⟨⟨rl, h2, h3, Nat.mod_lt _ (by omega), ?_⟩, ?_, ?_⟩
      · intro x hx
        injection hx with hx
        omega
      · obtain ⟨sub, hsub, hcore⟩ := hc
        refine ⟨sub, hsub, ?_⟩
        show (dk : Multiset Card) + (g.pot : Multiset Card) + handsCards hs +
          trickCards g.current_trick + historyCards g.trick_history + sub =
          univCards
        rw [show (dk : Multiset Card) + (g.pot : Multiset Card) +
          handsCards hs + trickCards g.current_trick +
          historyCards g.trick_history + sub =
          ((dk : Multiset Card) + handsCards hs) +
          ((g.pot : Multiset Card) + trickCards g.current_trick +
            historyCards g.trick_history + sub) from by abel, rm]
        rw [← hcore]
        simp only [coreCards]
        abel
      · refine ⟨Or.inr (Or.inr (Or.inr rfl)), p2, p3, p4, p5, p6, ?_, ?_,
          fun _ => p9 (Or.inl hph), ?_, fun _ => Or.inr ?_⟩
        · intro hx
          rcases hx with hx | hx <;>
            simp [PHASE_GAMEPLAY, PHASE_AUCTION, PHASE_DECLARATION] at hx
        · intro hx
          simp [PHASE_GAMEPLAY, PHASE_DECLARATION] at hx
        · intro hx
          simp [PHASE_GAMEPLAY, PHASE_DISCARD] at hx
        · refine ⟨(b + 1) % 4, 0, rfl, Nat.mod_lt _ (by omega), by omega,
            by show (b + 1) % 4 = ((b + 1) % 4 + 0) % 4; omega, ?_, ?_, ?_⟩
          · show g.trick_count ≤ 4
            omega
          · intro j hj
            show (g.current_trick.getD _ none).isSome = true ↔ j < 0
            rw [hd2, getD_none4]
            simp
          · intro p hpp
            show (hs.getD p []).length +
              (if (g.current_trick.getD p none).isSome then 1 else 0) +
              g.trick_count = 5
            rw [hd2, getD_none4, hd3, rg5 p hpp]
            simp
    · rw [if_neg hnext] at h
      injection h with h
      subst h
      refine ⟨⟨h1, h2, h3, Nat.mod_lt _ (by omega), h5⟩, ?_, ?_⟩
      · exact consInv_congr _ _ hc rfl rfl rfl rfl rfl rfl
      · refine ⟨Or.inr (Or.inr (Or.inl hph)), p2, p3, p4, p5, p6, ?_, ?_,
          fun _ => p9 (Or.inl hph), ?_, ?_⟩
        · intro hx
          rcases hx with hx | hx <;>
            simp [hph, PHASE_AUCTION, PHASE_DECLARATION, PHASE_DISCARD] at hx
        · intro hx
          simp [hph, PHASE_DECLARATION, PHASE_DISCARD] at hx
        · intro _
          refine ⟨hd1, hd2, hd3, b, hbb, hb4, hoth, hbd8, ?_⟩
          show discOrd g.auction_starting_player b <
              discOrd g.auction_starting_player
                ((g.current_player_id + 1) % 4) →
            (g.hands.getD b []).length ≤ 5
          intro hord
          by_cases hbc : b = g.current_player_id
          · subst hbc
            exact discard_done_bidder_le5 g hbb hbd8 (hdone ▸ hleg)
          · apply hbdone
            have hne : discOrd g.auction_starting_player b ≠
                discOrd g.auction_starting_player g.current_player_id := by
              intro hx
              exact hbc (discOrd_inj _ _ _ hasp4 hb4 h4 hx)
            simp only [discOrd] at hord hne ⊢
            omega
        · intro hx
          simp [hph, PHASE_DISCARD, PHASE_GAMEPLAY] at hx
  · rw [if_neg hdone] at h
    dsimp only at h
    by_cases hlen : a < (g.hands.getD g.current_player_id []).length
    · rw [dif_pos hlen] at h
      injection h with h
      subst h
      refine ⟨⟨by simpa using h1, h2, h3, h4, h5⟩, ?_, ?_⟩
      · obtain ⟨sub, hsub, hcore⟩ := hc
        refine ⟨sub + {(g.hands.getD g.current_player_id []).get ⟨a, hlen⟩},
          ?_, ?_⟩
        · show sub + {(g.hands.getD g.current_player_id []).get ⟨a, hlen⟩} ≤
            ((g.discard_pile ++
              [(g.hands.getD g.current_player_id []).get ⟨a, hlen⟩] :
                List Card) : Multiset Card)
          rw [show ((g.discard_pile ++
              [(g.hands.getD g.current_player_id []).get ⟨a, hlen⟩] :
                List Card) : Multiset Card) =
              (g.discard_pile : Multiset Card) +
                {(g.hands.getD g.current_player_id []).get ⟨a, hlen⟩} from by
            simp [← Multiset.coe_add]]
          exact add_le_add_right hsub _
        · show (g.deck : Multiset Card) + (g.pot : Multiset Card) +
            handsCards (g.hands.set g.current_player_id
              ((g.hands.getD g.current_player_id []).eraseIdx a)) +
            trickCards g.current_trick + historyCards g.trick_history +
            (sub + {(g.hands.getD g.current_player_id []).get ⟨a, hlen⟩}) =
            univCards
          simp only [handsCards]
          rw [show (g.deck : Multiset Card) + (g.pot : Multiset Card) +
            ((g.hands.set g.current_player_id
              ((g.hands.getD g.current_player_id []).eraseIdx a)).flatten :
                Multiset Card) +
            trickCards g.current_trick + historyCards g.trick_history +
            (sub + {(g.hands.getD g.current_player_id []).get ⟨a, hlen⟩}) =
            (((g.hands.set g.current_player_id
              ((g.hands.getD g.current_player_id []).eraseIdx a)).flatten :
                Multiset Card) +
              {(g.hands.getD g.current_player_id []).get ⟨a, hlen⟩}) +
            ((g.deck : Multiset Card) + (g.pot : Multiset Card) +
              trickCards g.current_trick + historyCards g.trick_history +
              sub) from by abel]
          rw [flatten_set_erase g.hands g.current_player_id a (by omega) hlen]
          rw [← hcore]
          simp only [coreCards, handsCards]
          abel
      · refine ⟨Or.inr (Or.inr (Or.inl hph)), p2, p3, p4, p5, p6, ?_, ?_,
          fun _ => p9 (Or.inl hph), ?_, ?_⟩
        · intro hx
          rcases hx with hx | hx <;>
            simp [hph, PHASE_AUCTION, PHASE_DECLARATION, PHASE_DISCARD] at hx
        · intro hx
          simp [hph, PHASE_DECLARATION, PHASE_DISCARD] at hx
        · intro _
          refine ⟨hd1, hd2, hd3, b, hbb, hb4, ?_, ?_, ?_⟩
          · intro i hi hib
            show ((g.hands.set g.current_player_id
              ((g.hands.getD g.current_player_id []).eraseIdx a)).getD i
                []).length ≤ 5
            rw [getD_set]
            split
            · rename_i hcond
              have hle := List.length_eraseIdx_le
                (g.hands.getD g.current_player_id []) a
              have := hoth i hi hib
              rw [← hcond.1] at this
              omega
            · exact hoth i hi hib
          · show ((g.hands.set g.current_player_id
              ((g.hands.getD g.current_player_id []).eraseIdx a)).getD b
                []).length ≤ 8
            rw [getD_set]
            split
            · rename_i hcond
              have hle := List.length_eraseIdx_le
                (g.hands.getD g.current_player_id []) a
              rw [← hcond.1] at hbd8
              omega
            · exact hbd8
          · show discOrd g.auction_starting_player b <
              discOrd g.auction_starting_player g.current_player_id →
              ((g.hands.set g.current_player_id
                ((g.hands.getD g.current_player_id []).eraseIdx a)).getD b
                  []).length ≤ 5
            intro hord
            have hbdone' := hbdone hord
            rw [getD_set]
            split
            · rename_i hcond
              have hle := List.length_eraseIdx_le
                (g.hands.getD g.current_player_id []) a
              rw [← hcond.1] at hbdone'
              omega
            · exact hbdone'
        · intro hx
          simp [hph, PHASE_DISCARD, PHASE_GAMEPLAY] at hx
    · rw [dif_neg hlen] at h
      cases h

theorem end_trick_more (g g' : GameState) (h : end_trick g = .ok g') :
    g'.dealer_id = g.dealer_id ∧
    g'.auction_starting_player = g.auction_starting_player := by
  rw [end_trick] at h
  cases hw : get_trick_winner g with
  | none => rw [hw] at h; cases h
  | some w =>
    rw [hw] at h
    dsimp only at h
    split at h
    · injection h with h
      subst h
      exact ⟨rfl, rfl⟩
    · cases h

theorem play_updates_fields (G : GameState) (c : Card) :
    (play_highest_trump_update (play_lead_update G c) c).hands = G.hands ∧
    (play_highest_trump_update (play_lead_update G c) c).current_trick =
      G.current_trick ∧
    (play_highest_trump_update (play_lead_update G c) c).deck = G.deck ∧
    (play_highest_trump_update (play_lead_update G c) c).pot = G.pot ∧
    (play_highest_trump_update (play_lead_update G c) c).trick_history =
      G.trick_history ∧
    (play_highest_trump_update (play_lead_update G c) c).discard_pile =
      G.discard_pile ∧
    (play_highest_trump_update (play_lead_update G c) c).phase = G.phase ∧
    (play_highest_trump_update (play_lead_update G c) c).current_player_id =
      G.current_player_id ∧
    (play_highest_trump_update (play_lead_update G c) c).trick_starter =
      G.trick_starter ∧
    (play_highest_trump_update (play_lead_update G c) c).trick_count =
      G.trick_count ∧
    (play_highest_trump_update (play_lead_update G c) c).tricks_won =
      G.tricks_won ∧
    (play_highest_trump_update (play_lead_update G c) c).highest_bidder =
      G.highest_bidder ∧
    (play_highest_trump_update (play_lead_update G c) c).highest_bid =
      G.highest_bid ∧
    (play_highest_trump_update (play_lead_update G c) c).trump_suit =
      G.trump_suit ∧
    (play_highest_trump_update (play_lead_update G c) c).dealer_id =
      G.dealer_id ∧
    (play_highest_trump_update (play_lead_update G c) c).auction_starting_player =
      G.auction_starting_player ∧
    ((play_highest_trump_update (play_lead_update G c) c).trick_lead_suit =
        G.trick_lead_suit ∨
      (play_highest_trump_update (play_lead_update G c) c).trick_lead_suit =
        .pyStr c.suit) := by
  rw [play_lead_update, play_highest_trump_update]
  split <;> split <;> simp

theorem countP_isSome_eq (t : List (Option Card)) (ht : t.length = 4)
    (ts : Nat) (hts : ts < 4) :
    t.countP (fun c => c.isSome) =
      (List.range 4).countP (fun j => (t.getD ((ts + j) % 4) none).isSome) := by
  obtain ⟨c0, c1, c2, c3, rfl⟩ : ∃ a b c d, t = [a, b, c, d] := by
    match t, ht with
    | [a, b, c, d], _ => exact ⟨a, b, c, d, rfl⟩
  interval_cases ts <;>
    (cases c0 <;> cases c1 <;> cases c2 <;> cases c3 <;> rfl)

theorem countP_range4 (P : Nat → Bool) (k : Nat) (hk : k ≤ 4)
    (h : ∀ j, j < 4 → (P j = true ↔ j < k)) :
    (List.range 4).countP P = k := by
  have h0 := h 0 (by omega)
  have h1 := h 1 (by omega)
  have h2 := h 2 (by omega)
  have h3 := h 3 (by omega)
  show List.countP P [0, 1, 2, 3] = k
  simp only [List.countP_cons, List.countP_nil]
  cases hp0 : P 0 <;> cases hp1 : P 1 <;> cases hp2 : P 2 <;>
    cases hp3 : P 3 <;>
    simp only [hp0, hp1, hp2, hp3, false_iff, true_iff, Bool.false_eq_true,
      if_true, if_false] at h0 h1 h2 h3 ⊢ <;>
    omega

theorem master_process_play (fresh : List Card) (g g' : GameState) (a : Nat)
    (hm : MasterInv g) (hph : g.phase = PHASE_GAMEPLAY)
    (hf : (fresh : Multiset Card) = univCards)
    (h : process_play fresh g a = .ok g') :
    MasterInv g' := by
  obtain ⟨⟨h1, h2, h3, h4, h5⟩, hc, hp⟩ := hm
  obtain ⟨p1, p2, p3, p4, p5, p6, p7, p8, p9, p10, p11⟩ := hp
  rw [process_play] at h
  dsimp only at h
  rcases p11 hph with ⟨hgo, hempty⟩ | ⟨ts, k, hts, hts4, hk4, hcur, htc,
      hslots, hhands⟩
  · -- terminal shape: the current hand is empty, warning branch
    rw [if_pos (by rw [hempty g.current_player_id h4]; rfl)] at h
    injection h with h
    subst h
    refine ⟨⟨h1, h2, h3, Nat.mod_lt _ (by omega), h5⟩,
      consInv_congr _ _ hc rfl rfl rfl rfl rfl rfl,
      Or.inr (Or.inr (Or.inr hph)), p2, p3, p4, p5, p6, ?_, ?_,
      fun _ => p9 (Or.inr hph), ?_, fun _ => Or.inl ⟨hgo, hempty⟩⟩
    · intro hx
      rcases hx with hx | hx <;>
        simp [hph, PHASE_AUCTION, PHASE_DECLARATION, PHASE_GAMEPLAY] at hx
    · intro hx
      simp [hph, PHASE_DECLARATION, PHASE_GAMEPLAY] at hx
    · intro hx
      simp [hph, PHASE_DISCARD, PHASE_GAMEPLAY] at hx
  · -- normal play
    have hnone : g.current_trick.getD g.current_player_id none = none := by
      have hsl := hslots k (by omega)
      rw [← hcur] at hsl
      rcases ho : g.current_trick.getD g.current_player_id none with _ | c
      · rfl
      · rw [ho] at hsl
        exact absurd (hsl.mp rfl) (by omega)
    have hlp := hhands g.current_player_id h4
    rw [hnone] at hlp
    simp only [Option.isSome_none, Bool.false_eq_true, if_false] at hlp
    have hne : g.hands.getD g.current_player_id [] ≠ [] := by
      intro hE
      rw [hE] at hlp
      simp at hlp
      omega
    rw [if_neg (by
      simpa [List.isEmpty_iff, List.getD_eq_getElem?_getD] using hne)] at h
    by_cases hlen : a < (g.hands.getD g.current_player_id []).length
    · rw [dif_pos hlen] at h
      set cp := (g.hands.getD g.current_player_id []).get ⟨a, hlen⟩ with hcp
      set G1 : GameState := { g with
        hands := g.hands.set g.current_player_id
          ((g.hands.getD g.current_player_id []).eraseIdx a),
        current_trick := g.current_trick.set g.current_player_id (some cp) }
        with hG1
      set G3 := play_highest_trump_update (play_lead_update G1 cp) cp
        with hG3
      obtain ⟨f1, f2, f3, f4, f5, f6, f7, f8, f9, f10, f11, f12, f13, f14,
        f15, f16, f17⟩ := play_updates_fields G1 cp
      rw [← hG3] at f1 f2 f3 f4 f5 f6 f7 f8
      rw [← hG3] at f9 f10 f11 f12 f13 f14 f15 f16 f17
      have E1 : G3.hands = g.hands.set g.current_player_id
          ((g.hands.getD g.current_player_id []).eraseIdx a) := by
        rw [f1, hG1]
      have E2 : G3.current_trick =
          g.current_trick.set g.current_player_id (some cp) := by
        rw [f2, hG1]
      have E3 : G3.deck = g.deck := by rw [f3, hG1]
      have E4 : G3.pot = g.pot := by rw [f4, hG1]
      have E5 : G3.trick_history = g.trick_history := by rw [f5, hG1]
      have E6 : G3.discard_pile = g.discard_pile := by rw [f6, hG1]
      have E7 : G3.phase = g.phase := by rw [f7, hG1]
      have E8 : G3.current_player_id = g.current_player_id := by
        rw [f8, hG1]
      have E9 : G3.trick_starter = g.trick_starter := by rw [f9, hG1]
      have E10 : G3.trick_count = g.trick_count := by rw [f10, hG1]
      have E11 : G3.tricks_won = g.tricks_won := by rw [f11, hG1]
      have E12 : G3.highest_bidder = g.highest_bidder := by rw [f12, hG1]
      have E13 : G3.highest_bid = g.highest_bid := by rw [f13, hG1]
      have E14 : G3.trump_suit = g.trump_suit := by rw [f14, hG1]
      have E15 : G3.dealer_id = g.dealer_id := by rw [f15, hG1]
      have E16 : G3.auction_starting_player = g.auction_starting_player := by
        rw [f16, hG1]
      have E17 : G3.trick_lead_suit = g.trick_lead_suit ∨
          G3.trick_lead_suit = .pyStr cp.suit := by
        rcases f17 with f17 | f17
        · left
          rw [f17, hG1]
        · right
          exact f17
      have hs3 : StructInv G3 := by
        refine ⟨?_, ?_, ?_, ?_, ?_⟩
        · rw [E1, List.length_set]
          exact h1
        · rw [E2, List.length_set]
          exact h2
        · rw [E11]
          exact h3
        · rw [E8]
          exact h4
        · rw [E12]
          exact h5
      have hslots' : ∀ j, j < 4 →
          (((g.current_trick.set g.current_player_id (some cp)).getD
            ((ts + j) % 4) none).isSome = true ↔ j < k + 1) := by
        intro j hj
        rw [getD_set]
        by_cases hjk : j = k
        · subst hjk
          have hcond : g.current_player_id = (ts + j) % 4 ∧
              g.current_player_id < g.current_trick.length := ⟨hcur, by omega⟩
          rw [if_pos hcond]
          simp
        · have hcond : ¬(g.current_player_id = (ts + j) % 4 ∧
              g.current_player_id < g.current_trick.length) := by
            rintro ⟨hx, -⟩
            rw [hcur] at hx
            omega
          rw [if_neg hcond]
          rw [hslots j hj]
          omega
      have hcnt : List.countP (fun c => c.isSome) G3.current_trick =
          k + 1 := by
        rw [E2, countP_isSome_eq _ (by simpa using h2) ts hts4]
        exact countP_range4 _ _ (by omega) hslots'
      have hT : trickCards (g.current_trick.set g.current_player_id
          (some cp)) = cp ::ₘ trickCards g.current_trick :=
        trickCards_set_some _ _ _ (by omega) hnone
      have hH : ((g.hands.set g.current_player_id
          ((g.hands.getD g.current_player_id []).eraseIdx a)).flatten :
            Multiset Card) + {cp} = (g.hands.flatten : Multiset Card) := by
        rw [hcp]
        exact flatten_set_erase g.hands g.current_player_id a (by omega) hlen
      have hcore3 : coreCards G3 = coreCards g := by
        simp only [coreCards, handsCards]
        rw [E1, E2, E3, E4, E5, hT, ← Multiset.singleton_add]
        rw [show (g.deck : Multiset Card) + (g.pot : Multiset Card) +
          ((g.hands.set g.current_player_id
            ((g.hands.getD g.current_player_id []).eraseIdx a)).flatten :
              Multiset Card) +
          ({cp} + trickCards g.current_trick) +
          historyCards g.trick_history =
          (((g.hands.set g.current_player_id
            ((g.hands.getD g.current_player_id []).eraseIdx a)).flatten :
              Multiset Card) + {cp}) +
          ((g.deck : Multiset Card) + (g.pot : Multiset Card) +
            trickCards g.current_trick + historyCards g.trick_history)
          from by abel, hH]
        abel
      by_cases hk3 : k = 3
      · subst hk3
        rw [if_pos (by rw [hcnt])] at h
        cases het : end_trick G3 with
        | error e =>
          rw [het] at h
          dsimp only [bind, Except.bind] at h
          cases h
        | ok g4 =>
          rw [het] at h
          dsimp only [bind, Except.bind] at h
          obtain ⟨hs4, hco4, hdp4, hh4, hdk4, hpt4, hph4, hbb4, hbid4,
            htc4, htr4, hws, htrump4, hlead4, hhist4, hpts4⟩ :=
            end_trick_spec G3 g4 hs3 het
          obtain ⟨w, hw4, htsw, hcurw⟩ := hws
          obtain ⟨hdl4, haspg4⟩ := end_trick_more G3 g4 het
          have hph4g : g4.phase = PHASE_GAMEPLAY := by
            rw [hph4, E7, hph]
          have hfull : ∀ p, p < 4 → p ≠ g.current_player_id →
              (g.current_trick.getD p none).isSome = true := by
            intro p hpp hpc
            have hj := hslots ((p + 4 - ts) % 4) (by omega)
            have hpj : (ts + (p + 4 - ts) % 4) % 4 = p := by omega
            rw [hpj] at hj
            apply hj.mpr
            have hne3 : (p + 4 - ts) % 4 ≠ 3 := by
              intro hx
              apply hpc
              rw [hcur]
              omega
            omega
          have hlen3 : ∀ p, p < 4 → (g4.hands.getD p []).length =
              4 - g.trick_count := by
            intro p hpp
            rw [hh4, E1, getD_set]
            by_cases hpc : p = g.current_player_id
            · have hcond : g.current_player_id = p ∧
                  g.current_player_id < g.hands.length := ⟨hpc.symm, by omega⟩
              rw [if_pos hcond, List.length_eraseIdx]
              simp only [hlen, if_true]
              omega
            · have hcond : ¬(g.current_player_id = p ∧
                  g.current_player_id < g.hands.length) := by
                rintro ⟨hx, -⟩
                exact hpc hx.symm
              rw [if_neg hcond]
              have hh := hhands p hpp
              rw [if_pos (hfull p hpp hpc)] at hh
              omega
          by_cases hov :
              (is_hand_over g4 || g4.hands.all fun x => x.isEmpty) = true
          · rw [if_pos hov] at h
            cases heh : end_hand g4 with
            | error e =>
              rw [heh] at h
              dsimp only [bind, Except.bind] at h
              cases h
            | ok g5 =>
              rw [heh] at h
              dsimp only [bind, Except.bind] at h
              obtain ⟨e1, e2, e3, e4, e5, e6, e7, e8, e9, e10, e11, e12,
                e13, e14, e15, e16, e17⟩ := end_hand_fields g4 g5 heh
              have hemp : ∀ i, i < 4 → g5.hands.getD i [] = [] := by
                intro i hi
                rw [e1]
                rcases Bool.or_eq_true_iff.mp hov with hov1 | hov1
                · have htc45 : 5 ≤ g4.trick_count := by
                    simpa [is_hand_over] using hov1
                  rw [htc4, E10] at htc45
                  have hl3 := hlen3 i hi
                  apply List.length_eq_zero.mp
                  omega
                · have hall := List.all_eq_true.mp hov1
                  have hi4 : i < g4.hands.length := by
                    rw [hs4.1]
                    omega
                  have hmem : g4.hands.getD i [] ∈ g4.hands := by
                    rw [List.getD_eq_getElem?_getD,
                      List.getElem?_eq_getElem hi4]
                    exact List.getElem_mem hi4
                  have := hall _ hmem
                  simpa [List.isEmpty_iff] using this
              cases hgo : check_game_over g5 with
              | true =>
                rw [if_pos hgo] at h
                dsimp only [pure, Except.pure] at h
                injection h with h
                subst h
                obtain ⟨sub, hsub, hcore⟩ := hc
                refine ⟨⟨?_, ?_, ?_, ?_, ?_⟩, ⟨sub, ?_, ?_⟩, ?_, ?_, ?_,
                  ?_, ?_, ?_, ?_, ?_, ?_, ?_, ?_⟩
                · rw [e1]
                  exact hs4.1
                · rw [e4]
                  exact hs4.2.1
                · rw [e10]
                  exact hs4.2.2.1
                · rw [e7]
                  exact hs4.2.2.2.1
                · intro x hx
                  rw [e12] at hx
                  exact hs4.2.2.2.2 x hx
                · rw [e6, hdp4, E6]
                  exact hsub
                · have hcc : coreCards g5 = coreCards g4 := by
                    simp only [coreCards, handsCards, trickCards,
                      historyCards, e1, e2, e3, e4, e5]
                  rw [hcc, hco4, hcore3]
                  exact hcore
                · rw [e8]
                  exact Or.inr (Or.inr (Or.inr hph4g))
                · rw [e17, haspg4, E16, e16, hdl4, E15]
                  exact p2
                · rw [e16, hdl4, E15]
                  exact p3
                · rw [e14, htrump4, E14]
                  exact p4
                · left
                  rw [e15, hlead4]
                · intro v hv
                  rw [e13, hbid4, E13] at hv
                  exact p6 v hv
                · intro hx
                  rcases hx with hx | hx <;> rw [e8, hph4g] at hx <;>
                    simp [PHASE_AUCTION, PHASE_DECLARATION,
                      PHASE_GAMEPLAY] at hx
                · intro hx
                  rw [e8, hph4g] at hx
                  simp [PHASE_DECLARATION, PHASE_GAMEPLAY] at hx
                · intro _
                  obtain ⟨n, hn, hn4⟩ := p9 (Or.inr hph)
                  refine ⟨n, ?_, hn4⟩
                  rw [e14, htrump4, E14]
                  exact hn
                · intro hx
                  rw [e8, hph4g] at hx
                  simp [PHASE_DISCARD, PHASE_GAMEPLAY] at hx
                · intro _
                  exact Or.inl ⟨hgo, hemp⟩
              | false =>
                rw [if_neg (by simp [hgo])] at h
                dsimp only [pure, Except.pure] at h
                injection h with h
                subst h
                exact master_start_new_hand fresh g5 hf
          · rw [if_neg hov] at h
            dsimp only [pure, Except.pure] at h
            injection h with h
            subst h
            obtain ⟨sub, hsub, hcore⟩ := hc
            have hiho : g4.trick_count < 5 := by
              have hor : (is_hand_over g4 ||
                  g4.hands.all fun x => x.isEmpty) = false := by
                simpa using hov
              have : is_hand_over g4 = false :=
                (Bool.or_eq_false_iff.mp hor).1
              simpa [is_hand_over] using this
            refine ⟨hs4, ⟨sub, ?_, ?_⟩, ?_, ?_, ?_, ?_, ?_, ?_, ?_, ?_,
              ?_, ?_, ?_⟩
            · rw [hdp4, E6]
              exact hsub
            · rw [hco4, hcore3]
              exact hcore
            · exact Or.inr (Or.inr (Or.inr hph4g))
            · rw [haspg4, E16, hdl4, E15]
              exact p2
            · rw [hdl4, E15]
              exact p3
            · rw [htrump4, E14]
              exact p4
            · exact Or.inl hlead4
            · intro v hv
              rw [hbid4, E13] at hv
              exact p6 v hv
            · intro hx
              rcases hx with hx | hx <;> rw [hph4g] at hx <;>
                simp [PHASE_AUCTION, PHASE_DECLARATION, PHASE_GAMEPLAY]
                  at hx
            · intro hx
              rw [hph4g] at hx
              simp [PHASE_DECLARATION, PHASE_GAMEPLAY] at hx
            · intro _
              obtain ⟨n, hn, hn4⟩ := p9 (Or.inr hph)
              refine ⟨n, ?_, hn4⟩
              rw [htrump4, E14]
              exact hn
            · intro hx
              rw [hph4g] at hx
              simp [PHASE_DISCARD, PHASE_GAMEPLAY] at hx
            · intro _
              right
              refine ⟨w, 0, htsw, hw4, by omega, ?_, ?_, ?_, ?_⟩
              · rw [hcurw]
                omega
              · rw [htc4, E10]
                rw [htc4, E10] at hiho
                omega
              · intro j hj
                rw [htr4, getD_none4]
                simp
              · intro p hpp
                rw [htr4, getD_none4, htc4, E10, hlen3 p hpp]
                simp only [Option.isSome_none, Bool.false_eq_true, if_false]
                omega
      · rw [if_neg (by rw [hcnt]; omega)] at h
        injection h with h
        subst h
        obtain ⟨sub, hsub, hcore⟩ := hc
        refine ⟨⟨hs3.1, hs3.2.1, hs3.2.2.1, Nat.mod_lt _ (by omega),
          hs3.2.2.2.2⟩, ⟨sub, ?_, ?_⟩, ?_, ?_, ?_, ?_, ?_, ?_, ?_, ?_, ?_,
          ?_, ?_⟩
        · show sub ≤ (G3.discard_pile : Multiset Card)
          rw [E6]
          exact hsub
        · show coreCards G3 + sub = univCards
          rw [hcore3]
          exact hcore
        · show G3.phase = PHASE_AUCTION ∨ G3.phase = PHASE_DECLARATION ∨
            G3.phase = PHASE_DISCARD ∨ G3.phase = PHASE_GAMEPLAY
          rw [E7]
          exact p1
        · show G3.auction_starting_player = (G3.dealer_id + 1) % 4
          rw [E16, E15]
          exact p2
        · show G3.dealer_id < 4
          rw [E15]
          exact p3
        · show G3.trump_suit = PySuit.pyNone ∨
            ∃ n, G3.trump_suit = PySuit.pyInt n ∧ n < 4
          rw [E14]
          exact p4
        · show G3.trick_lead_suit = PySuit.pyNone ∨
            ∃ s, G3.trick_lead_suit = PySuit.pyStr s
          rcases E17 with e | e
          · rw [e]
            exact p5
          · right
            exact ⟨cp.suit, e⟩
        · show ∀ v, G3.highest_bid = some v → v = 1 ∨ v = 2 ∨ v = 3
          rw [E13]
          exact p6
        · intro hx
          rcases hx with hx | hx <;>
            replace hx : G3.phase = _ := hx <;>
            rw [E7, hph] at hx <;>
            simp [PHASE_AUCTION, PHASE_DECLARATION, PHASE_GAMEPLAY] at hx
        · intro hx
          replace hx : G3.phase = _ := hx
          rw [E7, hph] at hx
          simp [PHASE_DECLARATION, PHASE_GAMEPLAY] at hx
        · intro _
          obtain ⟨n, hn, hn4⟩ := p9 (Or.inr hph)
          refine ⟨n, ?_, hn4⟩
          show G3.trump_suit = PySuit.pyInt n
          rw [E14]
          exact hn
        · intro hx
          replace hx : G3.phase = _ := hx
          rw [E7, hph] at hx
          simp [PHASE_DISCARD, PHASE_GAMEPLAY] at hx
        · intro _
          right
          refine ⟨ts, k + 1, ?_, hts4, by omega, ?_, ?_, ?_, ?_⟩
          · show G3.trick_starter = some ts
            rw [E9]
            exact hts
          · show (G3.current_player_id + 1) % 4 = (ts + (k + 1)) % 4
            rw [E8, hcur]
            omega
          · show G3.trick_count ≤ 4
            rw [E10]
            exact htc
          · intro j hj
            show ((G3.current_trick.getD ((ts + j) % 4) none).isSome =
              true ↔ j < k + 1)
            rw [E2]
            exact hslots' j hj
          · intro p hpp
            show (G3.hands.getD p []).length +
              (if (G3.current_trick.getD p none).isSome then 1 else 0) +
              G3.trick_count = 5
            rw [E1, E2, E10, getD_set, getD_set]
            by_cases hpc : p = g.current_player_id
            · have hcond1 : g.current_player_id = p ∧
                  g.current_player_id < g.hands.length :=
                ⟨hpc.symm, by omega⟩
              have hcond2 : g.current_player_id = p ∧
                  g.current_player_id < g.current_trick.length :=
                ⟨hpc.symm, by omega⟩
              rw [if_pos hcond1, if_pos hcond2, List.length_eraseIdx]
              simp only [hlen, if_true, Option.isSome_some]
              omega
            · have hcond1 : ¬(g.current_player_id = p ∧
                  g.current_player_id < g.hands.length) := by
                rintro ⟨hx, -⟩
                exact hpc hx.symm
              have hcond2 : ¬(g.current_player_id = p ∧
                  g.current_player_id < g.current_trick.length) := by
                rintro ⟨hx, -⟩
                exact hpc hx.symm
              rw [if_neg hcond1, if_neg hcond2]
              exact hhands p hpp
    · rw [dif_neg hlen] at h
      cases h

theorem master_step (fresh : List Card) (g g' : GameState) (a : Nat)
    (hm : MasterInv g) (hleg : a ∈ get_legal_actions g)
    (hf : (fresh : Multiset Card) = univCards)
    (h : step fresh g a = .ok g') : MasterInv g' := by
  rw [step] at h
  by_cases h1 : g.phase = PHASE_AUCTION
  · rw [if_pos h1] at h
    injection h with h
    subst h
    exact master_process_auction fresh g a hf hm h1
  · rw [if_neg h1] at h
    by_cases h2 : g.phase = PHASE_DECLARATION
    · rw [if_pos h2] at h
      injection h with h
      subst h
      apply master_process_declaration g a hm h2
      rw [get_legal_actions_declaration g h2] at hleg
      simp at hleg
      omega
    · rw [if_neg h2] at h
      by_cases h3 : g.phase = PHASE_DISCARD
      · rw [if_pos h3] at h
        exact master_process_discard g g' a hm h3 hleg h
      · rw [if_neg h3] at h
        by_cases h4 : g.phase = PHASE_GAMEPLAY
        · rw [if_pos h4] at h
          exact master_process_play fresh g g' a hm h4 hf h
        · exfalso
          obtain ⟨-, -, hp⟩ := hm
          rcases hp.1 with hx | hx | hx | hx <;> tauto

theorem reachable_master (g : GameState) (hr : Reachable g) : MasterInv g := by
  induction hr with
  | init d hd => exact master_init_game d hd
  | step g g' a fresh hr hf hleg h ih => exact master_step fresh g g' a ih hleg hf h

theorem get_legal_actions_ne_nil (g : GameState) :
    get_legal_actions g ≠ [] := by
  rw [get_legal_actions]
  dsimp only
  repeat' split
  all_goals simp_all [List.range_eq_nil]
  all_goals
    rename_i hpos
    intro hx
    rw [hx] at hpos
    simp at hpos

/-- C5 (amended): in every reachable state the cards outside the discard
pile, together with a sub-multiset of the discard pile (the cards discarded
in the current hand), form the 52-card universe exactly. -/
theorem c5_card_conservation_amended (g : GameState) (hr : Reachable g) :
    ∃ sub : Multiset Card, sub ≤ (g.discard_pile : Multiset Card) ∧
      coreCards g + sub = univCards :=
  (reachable_master g hr).2.1

theorem c5_card_conservation_amended_witness :
    ∃ sub : Multiset Card,
      sub ≤ ((init_game init_deck).discard_pile : Multiset Card) ∧
      coreCards (init_game init_deck) + sub = univCards :=
  c5_card_conservation_amended (init_game init_deck)
    (Reachable.init init_deck rfl)

/-- The 32-step trace reaching the second hand with a stale discard pile:
one full hand (auction, declaration, discards, five tricks) and the next
hand's auction and declaration. -/
def c5Trace : List Nat :=
  [1, 0, 0, 0, 0, 0, 0, 0, 16, 16, 16, 16, 0, 0, 0, 0, 0, 0, 0, 0,
   0, 0, 0, 0, 0, 1, 0, 0, 0, 0, 0, 0]

/-- C5 counterexample: a reachable state (the second hand, after the first
hand's discards were never cleared) where the full union including the
discard pile holds 55 card values, not the 52-card universe. -/
theorem c5_counterexample :
    ∃ g : GameState, Reachable g ∧ cardUnion g ≠ univCards := by
  have h55 : (runSteps init_deck (init_game init_deck) c5Trace).map
      (fun g => Multiset.card (cardUnion g)) = some 55 := by decide
  cases hrun : runSteps init_deck (init_game init_deck) c5Trace with
  | none =>
    rw [hrun] at h55
    cases h55
  | some gf =>
    rw [hrun] at h55
    injection h55 with h55
    dsimp only at h55
    refine ⟨gf, reachable_runSteps init_deck rfl c5Trace (init_game init_deck)
      gf (Reachable.init init_deck rfl) hrun, ?_⟩
    intro heq
    rw [heq] at h55
    have h52 : Multiset.card univCards = 52 := by decide
    omega

/-- C10: in every reachable state that has left the declaration phase, the
stored trump suit is the integer suit action, no card's string suit ever
compares equal to it, the only trump-classified card is the Ace of Hearts,
and in gameplay the lead suit never compares equal to the trump suit. -/
theorem c10_int_trump_invariant (g : GameState) (hr : Reachable g) :
    ((g.phase = PHASE_DISCARD ∨ g.phase = PHASE_GAMEPLAY) →
      (∃ n, g.trump_suit = PySuit.pyInt n ∧ n < 4) ∧
      (∀ c : Card, pyEq (.pyStr c.suit) g.trump_suit = false) ∧
      (∀ c : Card, isTrumpCard c g.trump_suit = true ↔
        c.rank = Rank.rA ∧ c.suit = Suit.H)) ∧
    (g.phase = PHASE_GAMEPLAY →
      pyEq g.trick_lead_suit g.trump_suit = false) := by
  obtain ⟨hs, hc, hp⟩ := reachable_master g hr
  obtain ⟨p1, p2, p3, p4, p5, p6, p7, p8, p9, p10, p11⟩ := hp
  constructor
  · intro hph
    obtain ⟨n, hn, hn4⟩ := p9 hph
    refine ⟨⟨n, hn, hn4⟩, ?_, ?_⟩
    · intro c
      rw [hn]
      rfl
    · intro c
      rw [isTrumpCard, hn]
      show (pyEq (.pyStr c.suit) (.pyInt n) ||
        (c.rank == Rank.rA && c.suit == Suit.H)) = true ↔ _
      simp [pyEq]
  · intro hph
    obtain ⟨n, hn, -⟩ := p9 (Or.inr hph)
    rcases p5 with hl | ⟨s, hl⟩ <;> rw [hl, hn] <;> rfl

/-- The 12-step trace (auction, declaration, discards) entering the first
gameplay phase. -/
def c10Trace : List Nat :=
  [1, 0, 0, 0, 0, 0, 0, 0, 16, 16, 16, 16]

/-- The gameplay state the trace reaches. -/
def c10State : GameState :=
  (runSteps init_deck (init_game init_deck) c10Trace).getD
    (init_game init_deck)

theorem c10_int_trump_invariant_witness :
    Reachable c10State ∧
    (c10State.phase = PHASE_DISCARD ∨ c10State.phase = PHASE_GAMEPLAY) ∧
    (∀ c : Card, isTrumpCard c c10State.trump_suit = true ↔
      c.rank = Rank.rA ∧ c.suit = Suit.H) := by
  have hrun : runSteps init_deck (init_game init_deck) c10Trace =
      some c10State := by decide
  have hre : Reachable c10State :=
    reachable_runSteps init_deck rfl c10Trace (init_game init_deck)
      c10State (Reachable.init init_deck rfl) hrun
  have hph : c10State.phase = PHASE_GAMEPLAY := by decide
  exact ⟨hre, Or.inr hph,
    ((c10_int_trump_invariant c10State hre).1 (Or.inr hph)).2.2⟩

/-- C8 (amended): the legal-action list is never empty in any state; in the
discard phase every action is a hand index or the done sentinel; in
gameplay every action is a hand index, except in the game-over limbo states
(some team at 125 points, all hands empty) where the list is the dummy
`[0]`. -/
theorem c8_legal_actions_amended (g : GameState) (hr : Reachable g) :
    get_legal_actions g ≠ [] ∧
    (g.phase = PHASE_DISCARD → ∀ a ∈ get_legal_actions g,
      a = DISCARD_DONE ∨
      a < (g.hands.getD g.current_player_id []).length) ∧
    (g.phase = PHASE_GAMEPLAY →
      (∀ a ∈ get_legal_actions g,
        a < (g.hands.getD g.current_player_id []).length) ∨
      (check_game_over g = true ∧ (∀ i, i < 4 → g.hands.getD i [] = []) ∧
        get_legal_actions g = [0])) := by
  obtain ⟨⟨h1, h2, h3, h4, h5⟩, hc, hp⟩ := reachable_master g hr
  obtain ⟨p1, p2, p3, p4, p5, p6, p7, p8, p9, p10, p11⟩ := hp
  refine ⟨get_legal_actions_ne_nil g, ?_, ?_⟩
  · intro hph a ha
    rw [get_legal_actions_discard g hph] at ha
    exact get_legal_discards_mem g a ha
  · intro hph
    rcases p11 hph with ⟨hgo, hempty⟩ | ⟨ts, k, hts, hts4, hk4, hcur, htc,
        hslots, hhands⟩
    · right
      exact ⟨hgo, hempty,
        get_legal_actions_gameplay_empty g hph
          (hempty g.current_player_id h4)⟩
    · left
      have hnone : g.current_trick.getD g.current_player_id none = none := by
        have hsl := hslots k (by omega)
        rw [← hcur] at hsl
        rcases ho : g.current_trick.getD g.current_player_id none with _ | c
        · rfl
        · rw [ho] at hsl
          exact absurd (hsl.mp rfl) (by omega)
      have hlp := hhands g.current_player_id h4
      rw [hnone] at hlp
      simp only [Option.isSome_none, Bool.false_eq_true, if_false] at hlp
      have hne : g.hands.getD g.current_player_id [] ≠ [] := by
        intro hE
        rw [hE] at hlp
        simp at hlp
        omega
      have hlt : pyEq g.trick_lead_suit g.trump_suit = false := by
        obtain ⟨n, hn, -⟩ := p9 (Or.inr hph)
        rcases p5 with hl | ⟨s, hl⟩ <;> rw [hl, hn] <;> rfl
      rw [get_legal_actions_gameplay g hph hne hlt]
      exact get_legal_plays_lt g

/-- The trace of the C8 witness: same 12 steps into gameplay. -/
def c8WitnessTrace : List Nat :=
  [1, 0, 0, 0, 0, 0, 0, 0, 16, 16, 16, 16]

/-- The gameplay state the witness trace reaches. -/
def c8WitnessState : GameState :=
  (runSteps init_deck (init_game init_deck) c8WitnessTrace).getD
    (init_game init_deck)

theorem c8_legal_actions_amended_witness :
    Reachable c8WitnessState ∧ get_legal_actions c8WitnessState ≠ [] := by
  have hrun : runSteps init_deck (init_game init_deck) c8WitnessTrace =
      some c8WitnessState := by decide
  have hre : Reachable c8WitnessState :=
    reachable_runSteps init_deck rfl c8WitnessTrace (init_game init_deck)
      c8WitnessState (Reachable.init init_deck rfl) hrun
  exact ⟨hre, (c8_legal_actions_amended c8WitnessState hre).1⟩

/-- The 224-step trace of a full game: East-West repeatedly bid 20 and get
set, North-South bank raw trick points, until North-South reach 125. -/
def c8Trace : List Nat :=
  [1, 0, 0, 0, 0, 0, 0, 0, 16, 16, 16, 16, 0, 0, 0, 0, 0, 0, 0, 0, 0, 0,
   0, 0, 0, 1, 0, 0, 0, 0, 0, 0, 0, 1, 0, 0, 0, 16, 0, 0, 0, 16, 16, 16,
   0, 0, 0, 0, 0, 0, 0, 0, 0, 0, 0, 0, 0, 0, 1, 0, 0, 0, 0, 0, 1, 0, 0,
   0, 0, 0, 0, 0, 16, 16, 16, 16, 0, 0, 0, 0, 0, 0, 0, 0, 0, 0, 0, 0, 0,
   0, 1, 0, 0, 0, 0, 0, 0, 1, 0, 0, 0, 16, 0, 0, 0, 16, 16, 16, 0, 0, 0,
   0, 0, 0, 0, 0, 0, 0, 0, 0, 0, 1, 0, 0, 0, 0, 0, 0, 1, 0, 0, 0, 0, 0,
   0, 0, 16, 16, 16, 16, 0, 0, 0, 0, 0, 0, 0, 0, 0, 0, 0, 0, 0, 1, 0, 0,
   0, 0, 0, 0, 0, 1, 0, 0, 0, 16, 0, 0, 0, 16, 16, 16, 0, 0, 0, 0, 0, 0,
   0, 0, 0, 0, 0, 0, 0, 0, 1, 0, 0, 0, 0, 0, 1, 0, 0, 0, 0, 0, 0, 0, 16,
   16, 16, 16, 0, 0, 0, 0, 0, 0, 0, 0, 0, 0, 0, 0, 0, 0, 1, 0, 0, 0, 0,
   0]

set_option maxRecDepth 1000000 in
/-- C8 counterexample: a reachable game-over gameplay state whose hands are
all empty but whose legal-action list is the dummy `[0]`: the action `0` is
neither a card index of the (empty) acting hand nor the discard-done
sentinel. -/
theorem c8_counterexample :
    ∃ g : GameState, Reachable g ∧ g.phase = PHASE_GAMEPLAY ∧
      0 ∈ get_legal_actions g ∧ 0 ≠ DISCARD_DONE ∧
      ¬(0 < (g.hands.getD g.current_player_id []).length) := by
  have hd : (runSteps init_deck (init_game init_deck) c8Trace).map
      (fun g => (g.phase, get_legal_actions g,
        (g.hands.getD g.current_player_id []).length)) =
      some (PHASE_GAMEPLAY, [0], 0) := by decide
  cases hrun : runSteps init_deck (init_game init_deck) c8Trace with
  | none =>
    rw [hrun] at hd
    cases hd
  | some gf =>
    rw [hrun] at hd
    injection hd with hd
    dsimp only at hd
    simp only [Prod.mk.injEq] at hd
    obtain ⟨hph, hleg, hlen⟩ := hd
    refine ⟨gf, reachable_runSteps init_deck rfl c8Trace (init_game init_deck)
      gf (Reachable.init init_deck rfl) hrun, hph, ?_, by decide, by omega⟩
    rw [hleg]
    simp
